import Mathlib

/-!
Verification of the request-lifecycle / instance-execution core of the
NVIDIA Triton inference server (src/core/infer_request.cc,
src/core/backend.cc, and the TritonModelInstance / TritonBackendThread
translation unit).

The C++ sources are shallowly embedded: mutable objects become records,
member mutation becomes explicit state passing, a function returning
Status while mutating its object becomes a function returning
Status × state.  C++ std::unordered_map members are modelled as
insertion-ordered association lists with unique keys (iteration order of
the C++ container is unspecified; the model fixes insertion order).
std::set of strings is modelled as a duplicate-free list (sortedness of
the C++ container only affects iteration order).  Machine integers:
tensor dimensions are int64 (Lean Int); the request batch size is
uint32, so the int64 → uint32 store in Normalize is modelled with an
explicit mod 2^32, and the (int)batch_size comparison against
max_batch_size with an explicit wrap at 2^31.
-/

/-- Status codes of the core Status type (src/core/status.h vocabulary). -/
inductive StatusCode where
  | Ok
  | Unknown
  | Internal
  | NotFound
  | InvalidArg
  | Unavailable
  | Unsupported
  | AlreadyExists
  deriving DecidableEq, Repr

/-- Status: a code plus a message, as in src/core/status.h. -/
structure Status where
  code : StatusCode
  msg : String
  deriving DecidableEq, Repr

/-- Status::Success. -/
def Status.Success : Status := ⟨StatusCode.Ok, ""⟩

/-- Status::IsOk(): true iff the code is the success code. -/
def Status.IsOk (s : Status) : Bool := s.code == StatusCode.Ok

/-- TRITONSERVER_Error codes.  A TRITONSERVER_Error* that is nullptr means
success, so an error value always carries one of these (non-success) codes. -/
inductive TritonErrorCode where
  | Unknown
  | Internal
  | NotFound
  | InvalidArg
  | Unavailable
  | Unsupported
  | AlreadyExists
  deriving DecidableEq, Repr

/-- A non-null TRITONSERVER_Error: code and message. -/
structure TritonError where
  code : TritonErrorCode
  msg : String
  deriving DecidableEq, Repr

/-- TritonCodeToStatusCode: maps a TRITONSERVER error code to a Status code
(none maps to the success code). -/
def TritonCodeToStatusCode : TritonErrorCode → StatusCode
  | TritonErrorCode.Unknown => StatusCode.Unknown
  | TritonErrorCode.Internal => StatusCode.Internal
  | TritonErrorCode.NotFound => StatusCode.NotFound
  | TritonErrorCode.InvalidArg => StatusCode.InvalidArg
  | TritonErrorCode.Unavailable => StatusCode.Unavailable
  | TritonErrorCode.Unsupported => StatusCode.Unsupported
  | TritonErrorCode.AlreadyExists => StatusCode.AlreadyExists

/-- The Status built from a TRITONSERVER_Error in TritonModelInstance::Execute. -/
def StatusOfTritonError (e : TritonError) : Status :=
  ⟨TritonCodeToStatusCode e.code, e.msg⟩

/-- Tensor data types (the model-config DataType values the core reads). -/
inductive DataType where
  | TYPE_BOOL
  | TYPE_INT8
  | TYPE_INT32
  | TYPE_INT64
  | TYPE_FP16
  | TYPE_FP32
  | TYPE_STRING
  deriving DecidableEq, Repr

/-- Modelled from the spec: GetDataTypeByteSize (model_config.cc is not among
the source files).  Fixed-size types have their natural byte size; the string
type has no fixed per-element size and reports 0 (the warmup path then falls
back to sizeof(int32), and "random strings are represented by zero bytes"). -/
def GetDataTypeByteSize : DataType → Int
  | DataType.TYPE_BOOL => 1
  | DataType.TYPE_INT8 => 1
  | DataType.TYPE_INT32 => 4
  | DataType.TYPE_INT64 => 8
  | DataType.TYPE_FP16 => 2
  | DataType.TYPE_FP32 => 4
  | DataType.TYPE_STRING => 0

/-- TRITONSERVER_MemoryType. -/
inductive TRITONSERVER_MemoryType where
  | CPU
  | CPU_PINNED
  | GPU
  deriving DecidableEq, Repr

/-- One (ptr, byte_size, memory_type, memory_type_id) entry of a
MemoryReference.  The pointer is modelled as an allocation identity plus an
offset into that allocation, and the pointed-to byte range is carried inline
as `bytes` (so byte_size = bytes.length). -/
structure MemSlice where
  allocId : Nat
  offset : Nat
  bytes : List Nat
  memory_type : TRITONSERVER_MemoryType
  memory_type_id : Int
  deriving DecidableEq, Repr

/-- AllocatedMemory: one owned slab with an allocation identity, its byte
content, and a memory-type tag. -/
structure AllocatedMemory where
  allocId : Nat
  content : List Nat
  memory_type : TRITONSERVER_MemoryType
  memory_type_id : Int
  deriving DecidableEq, Repr

/-- Memory: either a MemoryReference (list of foreign slices) or an
AllocatedMemory slab. -/
inductive Memory where
  | Reference (slices : List MemSlice)
  | Allocated (a : AllocatedMemory)
  deriving DecidableEq, Repr

/-- Memory::TotalByteSize(). -/
def Memory.TotalByteSize : Memory → Nat
  | Memory.Reference slices => (slices.map (fun s => s.bytes.length)).sum
  | Memory.Allocated a => a.content.length

/-- Memory::BufferAt(0): the first slice of a reference (none when the
reference is empty, where the C++ returns nullptr with size 0), or the whole
slab of an allocation. -/
def Memory.BufferAt0 : Memory → Option MemSlice
  | Memory.Reference slices => slices.head?
  | Memory.Allocated a => some ⟨a.allocId, 0, a.content, a.memory_type, a.memory_type_id⟩

/-- ModelInput::reshape (the reshape target dims). -/
structure ModelReshape where
  shape : List Int
  deriving DecidableEq, Repr

/-- The fields of a model-config input that the core reads. -/
structure ModelInput where
  name : String
  data_type : DataType
  dims : List Int
  is_shape_tensor : Bool := false
  reshape : Option ModelReshape := none
  deriving DecidableEq, Repr

/-- The fields of a model-config output that the core reads. -/
structure ModelOutput where
  name : String
  data_type : DataType
  dims : List Int
  deriving DecidableEq, Repr

/-- The fields of the model configuration that the request core reads. -/
structure ModelConfig where
  name : String
  input : List ModelInput
  output : List ModelOutput
  max_batch_size : Int
  deriving DecidableEq, Repr

/-- InferenceBackend: per-model state.  input_map_ / output_map_ are built
from the config by SetModelConfig, so lookups are modelled directly on the
config lists (config input/output names are unique). -/
structure InferenceBackend where
  config : ModelConfig
  version : Int := 1
  deriving DecidableEq, Repr

/-- InferenceBackend::Name() = config_.name(). -/
def InferenceBackend.Name (b : InferenceBackend) : String := b.config.name

/-- InferenceBackend::GetInput: look the name up in the input map, else
INVALID_ARG "unexpected inference input". -/
def InferenceBackend.GetInput (b : InferenceBackend) (name : String) :
    Except Status ModelInput :=
  match b.config.input.find? (fun io => io.name == name) with
  | some io => Except.ok io
  | none =>
      Except.error ⟨StatusCode.InvalidArg,
        "unexpected inference input '" ++ name ++ "' for model '" ++ b.Name ++ "'"⟩

/-- InferenceBackend::GetOutput: look the name up in the output map, else
INVALID_ARG "unexpected inference output". -/
def InferenceBackend.GetOutput (b : InferenceBackend) (name : String) :
    Except Status ModelOutput :=
  match b.config.output.find? (fun io => io.name == name) with
  | some io => Except.ok io
  | none =>
      Except.error ⟨StatusCode.InvalidArg,
        "unexpected inference output '" ++ name ++ "' for model '" ++ b.Name ++ "'"⟩

/-- The uint32 store of an int64 value (InferenceRequest::batch_size_ is
uint32_t while tensor dimensions are int64). -/
def uint32OfInt64 (d : Int) : Nat := (d % (2 : Int) ^ 32).toNat

/-- The (int) cast of a uint32 value used in the batch-size bound check. -/
def int32OfUInt32 (n : Nat) : Int :=
  if n < 2 ^ 31 then (n : Int) else (n : Int) - 2 ^ 32

/-- std::set<std::string>::insert, on the duplicate-free list model. -/
def SetInsert (s : List String) (x : String) : List String :=
  if x ∈ s then s else s ++ [x]

/-- InferenceRequest::Input: one tensor slot of a request.  The C++
constructor leaves shape_ / shape_with_batch_dim_ empty, is_shape_tensor_
false, and data_ an empty MemoryReference. -/
structure InferenceRequest.Input where
  name : String
  datatype : DataType
  original_shape : List Int
  shape : List Int := []
  shape_with_batch_dim : List Int := []
  is_shape_tensor : Bool := false
  data : Memory := Memory.Reference []
  deriving DecidableEq, Repr

/-- Input::AppendData(base, byte_size, memory_type, memory_type_id): when the
byte size is positive, append the slice to the MemoryReference.  (The C++
casts data_ to MemoryReference; every caller appends onto reference data, so
the Allocated case is never exercised and is modelled as a no-op.) -/
def InferenceRequest.Input.AppendData (i : InferenceRequest.Input)
    (s : MemSlice) : InferenceRequest.Input :=
  if s.bytes.length > 0 then
    match i.data with
    | Memory.Reference slices => { i with data := Memory.Reference (slices ++ [s]) }
    | Memory.Allocated _ => i
  else i

/-- Input::SetData: replace the data handle in one shot; fails INVALID_ARG if
the existing data is non-empty. -/
def InferenceRequest.Input.SetData (i : InferenceRequest.Input) (m : Memory) :
    Status × InferenceRequest.Input :=
  if i.data.TotalByteSize ≠ 0 then
    (⟨StatusCode.InvalidArg, "input '" ++ i.name ++ "' already has data, can't overwrite"⟩, i)
  else
    (Status.Success, { i with data := m })

/-- The response allocator installed on a request (the core installs one of a
fixed set of allocator callbacks; the claims only observe which one). -/
inductive ResponseAllocatorKind where
  | Unset
  | NullAllocator
  | WarmupAllocator
  deriving DecidableEq, Repr

/-- The status an allocator returns for an allocation request of a given byte
size: the null allocator (infer_request.cc NullResponseAlloc) fails every
allocation with INTERNAL; the warmup allocator (WarmupResponseAlloc)
succeeds with a fresh host buffer. -/
def ResponseAllocatorKind.AllocStatus : ResponseAllocatorKind → Nat → Status
  | ResponseAllocatorKind.Unset, _ => Status.Success
  | ResponseAllocatorKind.NullAllocator, _ =>
      ⟨StatusCode.Internal,
       "unexpected allocation for null request, no output should be requestd."⟩
  | ResponseAllocatorKind.WarmupAllocator, _ => Status.Success

/-- InferenceRequest.  Mutable C++ members become record fields; the maps
become insertion-ordered association lists.  `rid` models the object identity
(the C++ pointer), used only to label trace events.  The constructor defaults
(needs_normalization_ true, collect_stats_ true) are those of
infer_request.h, which declares them alongside these members. -/
structure InferenceRequest where
  rid : Nat := 0
  backend : InferenceBackend
  requested_model_version : Int := -1
  original_inputs : List (String × InferenceRequest.Input) := []
  override_inputs : List (String × InferenceRequest.Input) := []
  inputs : List (String × InferenceRequest.Input) := []
  original_requested_outputs : List String := []
  requested_outputs : List String := []
  batch_size : Nat := 0
  priority : Nat := 0
  needs_normalization : Bool := true
  collect_stats : Bool := true
  queue_start_ns : Nat := 0
  request_start_ns : Nat := 0
  release_callbacks : List Nat := []
  response_allocator : ResponseAllocatorKind := ResponseAllocatorKind.Unset
  deriving DecidableEq, Repr

/-- InferenceRequest::ModelName() = backend_raw_->Name(). -/
def InferenceRequest.ModelName (r : InferenceRequest) : String := r.backend.Name

/-- InferenceRequest::AddOriginalInput: emplace the input; INVALID_ARG when
the name already exists (in which case needs_normalization_ is not touched);
on success mark needs_normalization_.  The caller-side pointer mutations that
the C++ performs on the freshly inserted Input are modelled by passing the
fully built Input value.  (On the duplicate branch the C++ emplace hands back
the existing entry; no modelled caller reaches that branch, its sources all
have unique keys.) -/
def InferenceRequest.AddOriginalInput (r : InferenceRequest)
    (i : InferenceRequest.Input) : Status × InferenceRequest :=
  match r.original_inputs.lookup i.name with
  | some _ =>
      (⟨StatusCode.InvalidArg, "input '" ++ i.name ++ "' already exists in request"⟩, r)
  | none =>
      (Status.Success,
       { r with original_inputs := r.original_inputs ++ [(i.name, i)],
                needs_normalization := true })

/-- Modelled from the spec: CompareDimsWithWildcard (model_config_utils.cc is
not among the source files).  "Dimensions are compatible iff both sides equal
or either side is the wildcard sentinel" (-1); ranks must agree. -/
def CompareDimsWithWildcard : List Int → List Int → Bool
  | [], [] => true
  | d0 :: r0, d1 :: r1 =>
      (d0 == -1 || d1 == -1 || d0 == d1) && CompareDimsWithWildcard r0 r1
  | _, _ => false

/-- The variable-size values recorded by the reshape step of Normalize: the
working-shape entries at the positions where the declared dims are -1, in
order.  (The C++ indexes shape[idx] for idx over the declared dims; the two
lists have equal length here because CompareDimsWithWildcard passed, so the
zip loses nothing.) -/
def reshapeVariableValues (dims shape : List Int) : List Int :=
  (dims.zip shape).filterMap (fun p => if p.1 = -1 then some p.2 else none)

/-- The substitution step of the reshape adjustment: emit the reshape target,
replacing each -1 by the next recorded value (the C++ pops a deque; model
config validation guarantees the deque never underflows, so the headD default
is unreachable). -/
def substituteReshape : List Int → List Int → List Int
  | [], _ => []
  | d :: ds, vs =>
      if d = -1 then vs.headD 0 :: substituteReshape ds vs.tail
      else d :: substituteReshape ds vs

/-- The full reshape adjustment of Normalize (infer_request.cc lines 625-642):
record, then substitute. -/
def applyReshape (config_dims reshape_shape shape : List Int) : List Int :=
  substituteReshape reshape_shape (reshapeVariableValues config_dims shape)

/-- The error message of the batch-size mismatch in Normalize. -/
def batchMismatchMsg (iname mname : String) : String :=
  "input '" ++ iname ++ "' batch size does not match other inputs for '" ++ mname ++ "'"

/-- The error message of the missing-batch-dimension check in Normalize. -/
def noShapeMsg (iname mname : String) : String :=
  "input '" ++ iname ++ "' has no shape but model requires batch dimension for '" ++ mname ++ "'"

/-- The validation loop of step 1 of Normalize: the first unresolvable
requested-output name aborts with the GetOutput error. -/
def validateOutputNames (b : InferenceBackend) : List String → Status
  | [] => Status.Success
  | n :: rest =>
      match b.GetOutput n with
      | Except.error st => st
      | Except.ok _ => validateOutputNames b rest

/-- Step 1 of InferenceRequest::Normalize: clear requested_outputs_; if no
outputs were requested, insert every model-config output name; otherwise
validate each requested name against the backend's output map (the set stays
empty in that branch). -/
def InferenceRequest.normalizeRequestedOutputs (r : InferenceRequest) :
    Status × InferenceRequest :=
  let r := { r with requested_outputs := [] }
  if r.original_requested_outputs.length = 0 then
    (Status.Success,
     { r with requested_outputs :=
         r.backend.config.output.foldl (fun s o => SetInsert s o.name) [] })
  else
    (validateOutputNames r.backend r.original_requested_outputs, r)

/-- The batching branch of Normalize (model max_batch_size > 0), one input at
a time.  A shape-tensor input keeps its original shape and is tagged; any
other input must have a non-empty original shape; its leading dimension is
stored into the uint32 batch_size_ when that is still 0, must otherwise equal
batch_size_, and is then stripped.  On error the already-processed prefix
keeps its updates, as the C++ mutates the map in place. -/
def normalizeBatchLoop (b : InferenceBackend) (mname : String) :
    Nat → List (String × InferenceRequest.Input) →
    Status × Nat × List (String × InferenceRequest.Input)
  | bs, [] => (Status.Success, bs, [])
  | bs, (n, input) :: rest =>
    match b.GetInput n with
    | Except.error st => (st, bs, (n, input) :: rest)
    | Except.ok input_config =>
      if input_config.is_shape_tensor then
        let input := { input with shape := input.original_shape, is_shape_tensor := true }
        let res := normalizeBatchLoop b mname bs rest
        (res.1, res.2.1, (n, input) :: res.2.2)
      else if input.original_shape.length = 0 then
        (⟨StatusCode.InvalidArg, noShapeMsg input.name mname⟩, bs, (n, input) :: rest)
      else if bs = 0 then
        let bs := uint32OfInt64 (input.original_shape.headD 0)
        let input := { input with shape := input.original_shape.tail }
        let res := normalizeBatchLoop b mname bs rest
        (res.1, res.2.1, (n, input) :: res.2.2)
      else if input.original_shape.headD 0 ≠ (bs : Int) then
        (⟨StatusCode.InvalidArg, batchMismatchMsg input.name mname⟩, bs, (n, input) :: rest)
      else
        let input := { input with shape := input.original_shape.tail }
        let res := normalizeBatchLoop b mname bs rest
        (res.1, res.2.1, (n, input) :: res.2.2)

/-- The per-input validation loop of Normalize: resolve the input in the
config, check the data type, check the working shape against the declared
dims under the wildcard rule, apply the reshape adjustment when declared, and
compute shape_with_batch_dim.  On error the already-processed prefix keeps
its updates. -/
def validateInputsLoop (b : InferenceBackend) (mname : String) (bs : Nat) :
    List (String × InferenceRequest.Input) →
    Status × List (String × InferenceRequest.Input)
  | [] => (Status.Success, [])
  | (n, input) :: rest =>
    match b.GetInput n with
    | Except.error st => (st, (n, input) :: rest)
    | Except.ok input_config =>
      if input.datatype ≠ input_config.data_type then
        (⟨StatusCode.InvalidArg,
          "inference input data-type does not match model data-type for '" ++ mname ++ "'"⟩,
         (n, input) :: rest)
      else if ¬ CompareDimsWithWildcard input_config.dims input.shape then
        (⟨StatusCode.InvalidArg,
          "unexpected shape for input '" ++ n ++ "' for model '" ++ mname ++ "'"⟩,
         (n, input) :: rest)
      else
        let input :=
          match input_config.reshape with
          | some rs => { input with shape := applyReshape input_config.dims rs.shape input.shape }
          | none => input
        let input :=
          if bs = 0 then { input with shape_with_batch_dim := input.shape }
          else { input with shape_with_batch_dim := (bs : Int) :: input.shape }
        let res := validateInputsLoop b mname bs rest
        (res.1, (n, input) :: res.2)

/-- The batch-size determination of Normalize: when the model does not
declare batching, batch_size_ is set to 0 and every input's working shape is
its original shape; otherwise the batching loop runs over the inputs. -/
def InferenceRequest.normalizeBatchPhase (r : InferenceRequest) :
    Status × InferenceRequest :=
  if r.backend.config.max_batch_size = 0 then
    (Status.Success,
     { r with batch_size := 0,
              original_inputs :=
                r.original_inputs.map
                  (fun p => (p.1, { p.2 with shape := p.2.original_shape })) })
  else
    match normalizeBatchLoop r.backend r.ModelName 0 r.original_inputs with
    | (st, bs, oi) => (st, { r with batch_size := bs, original_inputs := oi })

/-- The per-input validation stage of Normalize as a whole-request step. -/
def InferenceRequest.normalizeValidatePhase (r : InferenceRequest) :
    Status × InferenceRequest :=
  match validateInputsLoop r.backend r.ModelName r.batch_size r.original_inputs with
  | (st, oi) => (st, { r with original_inputs := oi })

/-- InferenceRequest::Normalize: requested-output resolution, input-count
check, batch-size determination and batch-dimension stripping, batch-size
bound check, then per-input validation (dtype, wildcard shape check, reshape,
shape_with_batch_dim). -/
def InferenceRequest.Normalize (r : InferenceRequest) : Status × InferenceRequest :=
  match r.normalizeRequestedOutputs with
  | (st0, r) =>
    if st0.IsOk then
      if r.original_inputs.length ≠ r.backend.config.input.length then
        (⟨StatusCode.InvalidArg,
          "expected " ++ toString r.backend.config.input.length ++ " inputs but got " ++
          toString r.original_inputs.length ++ " inputs for model '" ++ r.ModelName ++ "'"⟩,
         r)
      else
        match r.normalizeBatchPhase with
        | (st1, r) =>
          if st1.IsOk then
            if int32OfUInt32 r.batch_size > r.backend.config.max_batch_size then
              (⟨StatusCode.InvalidArg,
                "inference request batch-size must be <= " ++
                toString r.backend.config.max_batch_size ++ " for '" ++ r.ModelName ++ "'"⟩,
               r)
            else r.normalizeValidatePhase
          else (st1, r)
    else (st0, r)

/-- The tail of InferenceRequest::PrepareForInference after a (possibly
skipped) successful Normalize: show the original inputs as the actual inputs
and clear the timestamps. -/
def InferenceRequest.finishPrepare (r : InferenceRequest) : InferenceRequest :=
  { r with inputs := r.original_inputs, queue_start_ns := 0, request_start_ns := 0 }

/-- The entry step of PrepareForInference: remove the override inputs (those
are added during any previous inference execution) and clear the
actual-input view. -/
def InferenceRequest.clearedForPrepare (r : InferenceRequest) : InferenceRequest :=
  { r with inputs := [], override_inputs := [] }

/-- InferenceRequest::PrepareForInference: clear the actual-input view and
the override table, renormalize when needed (an error propagates, leaving
needs_normalization_ set), then repopulate inputs_ from the originals and
zero the timestamps. -/
def InferenceRequest.PrepareForInference (r : InferenceRequest) :
    Status × InferenceRequest :=
  if r.clearedForPrepare.needs_normalization then
    match r.clearedForPrepare.Normalize with
    | (st, r1) =>
      if st.IsOk then
        (Status.Success,
         InferenceRequest.finishPrepare { r1 with needs_normalization := false })
      else (st, r1)
  else (Status.Success, r.clearedForPrepare.finishPrepare)

/-- Modelled from the spec: the ImmutableRequestedOutputs accessor lives in
infer_request.h, which is not among the source files.  Spec:
"ImmutableRequestedOutputs — the effective set (= originals if non-empty,
else all model outputs)".  Normalize (in the sources) fills
requested_outputs_ with all model-config outputs exactly when the originals
are empty and leaves it empty otherwise, so the accessor returns the
originals when requested_outputs_ is empty and requested_outputs_ otherwise. -/
def InferenceRequest.ImmutableRequestedOutputs (r : InferenceRequest) : List String :=
  if r.requested_outputs.length = 0 then r.original_requested_outputs
  else r.requested_outputs

/-- The bytes of Memory::BufferAt(0) (the empty-reference case reads as no
bytes, matching the nullptr-with-size-0 return). -/
def sourceBytesAt0 (m : Memory) : List Nat :=
  match m.BufferAt0 with
  | some s => s.bytes
  | none => []

/-- new AllocatedMemory(size, CPU, 0) followed by memcpy of `src` into it:
the copied bytes, then (when the source is shorter than the allocation,
which only happens off the single-buffer assumption) uninitialized bytes
modelled as zero. -/
def memcpyAlloc (aid size : Nat) (src : List Nat) : AllocatedMemory :=
  ⟨aid, src.take size ++ List.replicate (size - src.length) 0,
   TRITONSERVER_MemoryType.CPU, 0⟩

/-- First pass of InferenceRequest::CopyAsNull: for every shape-tensor input
of the source, allocate a CPU buffer of the input's total byte size, memcpy
the bytes of the source's first buffer into it (the code assumes shape
tensors live in a single CPU buffer), and add a clone input whose
original/working/batched shapes are all the source's working shape.
Threads the fresh-allocation counter. -/
def copyAsNullShapePass (allocId : Nat) (lrequest : InferenceRequest) :
    List (String × InferenceRequest.Input) → Nat × InferenceRequest
  | [] => (allocId, lrequest)
  | (iname, input) :: rest =>
    if input.is_shape_tensor then
      let data := memcpyAlloc allocId input.data.TotalByteSize (sourceBytesAt0 input.data)
      let new_input : InferenceRequest.Input :=
        { name := iname, datatype := input.datatype, original_shape := input.shape,
          shape := input.shape, shape_with_batch_dim := input.shape,
          data := Memory.Allocated data }
      copyAsNullShapePass (allocId + 1) (lrequest.AddOriginalInput new_input).2 rest
    else
      copyAsNullShapePass allocId lrequest rest

/-- Second pass of CopyAsNull: the maximum total byte size over the source's
non-shape-tensor inputs, together with the name of the input that attains it
(ties kept by the later entry, through the >= comparison; none when the
source has no non-shape input, where the C++ pointer stays uninitialized). -/
def copyAsNullMaxPass (acc : Nat × Option String) :
    List (String × InferenceRequest.Input) → Nat × Option String
  | [] => acc
  | (iname, input) :: rest =>
    if input.is_shape_tensor then copyAsNullMaxPass acc rest
    else if input.data.TotalByteSize ≥ acc.1 then
      copyAsNullMaxPass (input.data.TotalByteSize, some iname) rest
    else copyAsNullMaxPass acc rest

/-- Third pass of CopyAsNull: for every non-shape-tensor input of the source,
add a clone input; the input named by the second pass holds the shared
Allocated slab directly, every other one appends a slice of the slab's start
whose length is the source input's total byte size. -/
def copyAsNullThirdPass (data : AllocatedMemory) (max_input_name : Option String)
    (lrequest : InferenceRequest) :
    List (String × InferenceRequest.Input) → InferenceRequest
  | [] => lrequest
  | (iname, input) :: rest =>
    if input.is_shape_tensor then copyAsNullThirdPass data max_input_name lrequest rest
    else
      let base : InferenceRequest.Input :=
        { name := iname, datatype := input.datatype, original_shape := input.shape,
          shape := input.shape, shape_with_batch_dim := input.shape,
          data := Memory.Reference [] }
      let new_input :=
        if max_input_name = some iname then { base with data := Memory.Allocated data }
        else
          base.AppendData
            ⟨data.allocId, 0, data.content.take input.data.TotalByteSize,
             data.memory_type, data.memory_type_id⟩
      copyAsNullThirdPass data max_input_name (lrequest.AddOriginalInput new_input).2 rest

/-- InferenceRequest::CopyAsNull: build a null request against the same
backend and version with the same batch size, no stats collection, cloned
shape-tensor inputs, one shared artificial slab for all non-shape inputs,
the null response allocator, and inputs_ rebuilt from the clone's originals.
`next_alloc_id` supplies fresh allocation identities (the C++ news
AllocatedMemory objects); the clone's rid models the new object identity.
The entry assignment needs_normalization_ = false is re-overwritten by every
AddOriginalInput call, which sets the flag. -/
def InferenceRequest.CopyAsNull (next_alloc_id : Nat) (from_ : InferenceRequest) :
    InferenceRequest :=
  let lrequest : InferenceRequest :=
    { rid := from_.rid + 1,
      backend := from_.backend,
      requested_model_version := from_.requested_model_version,
      needs_normalization := false,
      batch_size := from_.batch_size,
      collect_stats := false }
  let sres := copyAsNullShapePass next_alloc_id lrequest from_.original_inputs
  let mres := copyAsNullMaxPass (0, none) from_.original_inputs
  let data : AllocatedMemory :=
    ⟨sres.1, List.replicate mres.1 0, TRITONSERVER_MemoryType.CPU, 0⟩
  let lrequest := copyAsNullThirdPass data mres.2 sres.2 from_.original_inputs
  let lrequest := { lrequest with response_allocator := ResponseAllocatorKind.NullAllocator }
  { lrequest with inputs := lrequest.original_inputs }

/-- Release flag RELEASE_ALL (bit 0). -/
def TRITONSERVER_REQUEST_RELEASE_ALL : Nat := 1

/-- Observable events of the response/release path, labelled with the rid
(object identity) of the request they belong to. -/
inductive Event where
  | response (rid : Nat) (status : Status)
  | hook (rid : Nat) (hookId : Nat)
  | release (rid : Nat) (flags : Nat)
  deriving DecidableEq, Repr

/-- The rid an event belongs to. -/
def Event.rid : Event → Nat
  | Event.response i _ => i
  | Event.hook i _ => i
  | Event.release i _ => i

/-- The sub-trace of events belonging to one request. -/
def eventsOf (t : List Event) (i : Nat) : List Event :=
  t.filter (fun e => e.rid == i)

/-- InferenceRequest::Release: run the internally registered release hooks in
reverse registration order, clear the hook list, then invoke the user release
callback with the flags (ownership transfers there, so the returned state is
the request as the callback receives it: hooks cleared). -/
def InferenceRequest.Release (r : InferenceRequest) (release_flags : Nat) :
    List Event × InferenceRequest :=
  (r.release_callbacks.reverse.map (Event.hook r.rid) ++ [Event.release r.rid release_flags],
   { r with release_callbacks := [] })

/-- InferenceRequest::RespondIfError (scalar form), as a trace: nothing when
the status is OK; otherwise one error response built via the request's
response factory and carrying the status, followed — when release_request —
by the Release trace with RELEASE_ALL. -/
def InferenceRequest.RespondIfErrorEvents (r : InferenceRequest) (status : Status)
    (release_request : Bool) : List Event :=
  if status.IsOk then []
  else
    Event.response r.rid status ::
      (if release_request then (r.Release TRITONSERVER_REQUEST_RELEASE_ALL).1 else [])

/-- The request loop of the error branch of TritonModelInstance::Execute:
RespondIfError(request, status, true) for each request in order. -/
def respondAllWithError (status : Status) : List InferenceRequest → List Event
  | [] => []
  | r :: rest => r.RespondIfErrorEvents status true ++ respondAllWithError status rest

/-- TritonModelInstance::Execute: hand the batch to the plugin's exec hook;
when the hook returns an error the instance retains ownership and emits an
error response and a release for every request; when it returns success the
plugin owns the requests and the instance emits nothing. -/
def TritonModelInstance.Execute (exec_error : Option TritonError)
    (requests : List InferenceRequest) : List Event :=
  match exec_error with
  | none => []
  | some e => respondAllWithError (StatusOfTritonError e) requests

/-- TritonBackendThread payload operations. -/
inductive Operation where
  | INIT
  | WARM_UP
  | INFER_RUN
  | EXIT
  deriving DecidableEq, Repr

/-- The plugin-determined behaviors an instance's worker functions observe.
InitializeFunc runs the plugin's instance-init hook (its body is outside
these sources; its status is a parameter), WarmUpFunc's status likewise, and
the exec hook's outcome feeds TritonModelInstance::Execute. -/
structure PluginHooks where
  init_status : Status
  warmup_status : Status
  exec_error : Option TritonError

/-- TritonBackendThread::Payload: an operation plus, for INFER_RUN, the
requests (the completion closure is not modelled; it carries no status). -/
structure Payload where
  op_type : Operation
  requests : List InferenceRequest := []

/-- The result of TritonBackendThread::Payload::Execute: the should_exit
flag, the value set on the payload's status channel, and the emitted events.
The local `Status status` is default-constructed to Success and the INFER_RUN
arm never assigns it: ScheduleFunc's Execute reports plugin errors only as
per-request responses. -/
structure PayloadResult where
  should_exit : Bool
  channel_status : Status
  events : List Event

/-- TritonBackendThread::Payload::Execute. -/
def Payload.Execute (hooks : PluginHooks) (p : Payload) : PayloadResult :=
  match p.op_type with
  | Operation.INFER_RUN =>
      ⟨false, Status.Success, TritonModelInstance.Execute hooks.exec_error p.requests⟩
  | Operation.INIT => ⟨false, hooks.init_status, []⟩
  | Operation.WARM_UP => ⟨false, hooks.warmup_status, []⟩
  | Operation.EXIT => ⟨true, Status.Success, []⟩

/-- Modelled from the spec: GetElementCount (model_config.cc is not among
the source files).  -1 when any dimension is the wildcard (the warmup pass
then rejects the setting: "all variable-size dimensions are specified");
otherwise the product of the dimensions. -/
def GetElementCount (dims : List Int) : Int :=
  if dims.any (fun d => d == -1) then -1 else dims.foldl (fun c d => c * d) 1

/-- The input_data_type oneof of a ModelWarmup input, with file-backed data
carrying the file's bytes. -/
inductive InputDataTypeCase where
  | kZeroData
  | kRandomData
  | kInputDataFile (file_bytes : List Nat)
  | NOT_SET
  deriving DecidableEq, Repr

/-- The fields of a model_warmup input that GenerateWarmupData reads. -/
structure ModelWarmupInput where
  data_type : DataType
  dims : List Int
  input_data_type : InputDataTypeCase
  deriving DecidableEq, Repr

/-- The per-batch byte size of a warmup input (TritonModelInstance::
GenerateWarmupData lines 284-288): element count times the data-type byte
size, falling back to element count times sizeof(int32) when that is zero
(string-typed inputs). -/
def warmupBatchByteSize (m : ModelWarmupInput) : Int :=
  let element_count := GetElementCount m.dims
  let batch_byte_size := element_count * GetDataTypeByteSize m.data_type
  if batch_byte_size = 0 then element_count * 4 else batch_byte_size

/-- The sizing pass of GenerateWarmupData (lines 272-307): reject any input
with an unspecified variable-size dimension; fold the per-batch byte size of
every ZeroData input and of every string-typed RandomData input into
max_zero, and of every non-string RandomData input into max_random. -/
def warmupSizingLoop (mz mr : Int) :
    List (String × ModelWarmupInput) → Except Status (Int × Int)
  | [] => Except.ok (mz, mr)
  | (iname, m) :: rest =>
    if GetElementCount m.dims = -1 then
      Except.error ⟨StatusCode.InvalidArg,
        "warmup setting expects all variable-size dimensions are specified for input '"
          ++ iname ++ "'"⟩
    else
      match m.input_data_type with
      | InputDataTypeCase.kZeroData =>
          warmupSizingLoop (max (warmupBatchByteSize m) mz) mr rest
      | InputDataTypeCase.kRandomData =>
          if m.data_type = DataType.TYPE_STRING then
            warmupSizingLoop (max (warmupBatchByteSize m) mz) mr rest
          else warmupSizingLoop mz (max (warmupBatchByteSize m) mr) rest
      | _ => warmupSizingLoop mz mr rest

/-- The zero slab built after the sizing pass (lines 314-318): a pinned-host
allocation of max_zero bytes, memset to zero. -/
def warmupZeroData (max_zero : Int) (allocId : Nat) : AllocatedMemory :=
  ⟨allocId, List.replicate max_zero.toNat 0, TRITONSERVER_MemoryType.CPU_PINNED, 0⟩

/-- The random slab built after the sizing pass (lines 320-327): a
pinned-host allocation of max_random bytes filled with 8-bit values from
rand() (modelled by the byte source `rnd`). -/
def warmupRandomData (max_random : Int) (allocId : Nat) (rnd : Nat → Nat) :
    AllocatedMemory :=
  ⟨allocId, (List.range max_random.toNat).map rnd, TRITONSERVER_MemoryType.CPU_PINNED, 0⟩

/-- Which buffer the request-construction pass serves an input from. -/
inductive WarmupBufferChoice where
  | zeroBuffer
  | randomBuffer
  | fileBuffer
  | unsetError
  deriving DecidableEq, Repr

/-- The allocated_ptr selection of the request-construction pass (lines
347-389): ZeroData from the zero slab; RandomData from the zero slab when
string-typed, else from the random slab; file-backed data from the file's own
buffer; an unset oneof is an INVALID_ARG error. -/
def warmupBufferChoice (m : ModelWarmupInput) : WarmupBufferChoice :=
  match m.input_data_type with
  | InputDataTypeCase.kZeroData => WarmupBufferChoice.zeroBuffer
  | InputDataTypeCase.kRandomData =>
      if m.data_type = DataType.TYPE_STRING then WarmupBufferChoice.zeroBuffer
      else WarmupBufferChoice.randomBuffer
  | InputDataTypeCase.kInputDataFile _ => WarmupBufferChoice.fileBuffer
  | InputDataTypeCase.NOT_SET => WarmupBufferChoice.unsetError

/-- True exactly on the user-release-callback event. -/
def Event.isRelease : Event → Bool
  | Event.release _ _ => true
  | _ => false

/-- The responses for a given request in a trace. -/
def responsesFor (t : List Event) (i : Nat) : List Event :=
  t.filter (fun e =>
    match e with
    | Event.response j _ => j == i
    | _ => false)

/-- The user-release invocations for a given request in a trace. -/
def releasesFor (t : List Event) (i : Nat) : List Event :=
  t.filter (fun e =>
    match e with
    | Event.release j _ => j == i
    | _ => false)

/-- The running value of the uint32 batch_size_ over the leading dimensions
of the non-shape-tensor inputs, in iteration order: an input's leading
dimension is stored (mod 2^32) whenever the running value is still 0. -/
def runningBatch (bs : Nat) : List Int → Nat
  | [] => bs
  | d :: ds => if bs = 0 then runningBatch (uint32OfInt64 d) ds else runningBatch bs ds

/-- Whether a sequence of leading dimensions passes the batch-agreement check
of Normalize: against a running batch size of 0 any dimension is stored;
against a nonzero one the dimension must equal it. -/
def batchDimsConsistent (bs : Nat) : List Int → Bool
  | [] => true
  | d :: ds =>
      if bs = 0 then batchDimsConsistent (uint32OfInt64 d) ds
      else decide (d = (bs : Int)) && batchDimsConsistent bs ds

/-- The leading dimensions of the inputs the batching branch of Normalize
subjects to the agreement check: the inputs that resolve in the config and
are not shape tensors, in iteration order. -/
def nonShapeLeadingDims (b : InferenceBackend) :
    List (String × InferenceRequest.Input) → List Int
  | [] => []
  | (n, i) :: rest =>
    match b.GetInput n with
    | Except.ok cfg =>
        if cfg.is_shape_tensor then nonShapeLeadingDims b rest
        else i.original_shape.headD 0 :: nonShapeLeadingDims b rest
    | Except.error _ => nonShapeLeadingDims b rest

/-- The working shape of an input after the batch phase of Normalize and
before the reshape adjustment: the original shape when the model does not
batch or the input is a shape tensor, else the original shape with its first
dimension removed. -/
def preReshapeShape (maxbs : Int) (cfg : ModelInput) (i : InferenceRequest.Input) :
    List Int :=
  if maxbs = 0 then i.original_shape
  else if cfg.is_shape_tensor then i.original_shape
  else i.original_shape.tail

/-- The per-entry effect of a successful Normalize on an original input,
as a function of the pre-Normalize entry: the batch-phase shape, the reshape
adjustment, and shape_with_batch_dim (the GetInput-error branch is
unreachable on a successful run). -/
def normalizeInputEntry (b : InferenceBackend) (maxbs : Int) (bs : Nat)
    (p : String × InferenceRequest.Input) : String × InferenceRequest.Input :=
  match b.GetInput p.1 with
  | Except.error _ => p
  | Except.ok cfg =>
    let i := p.2
    let i :=
      if maxbs = 0 then { i with shape := i.original_shape }
      else if cfg.is_shape_tensor then
        { i with shape := i.original_shape, is_shape_tensor := true }
      else { i with shape := i.original_shape.tail }
    let i :=
      match cfg.reshape with
      | some rs => { i with shape := applyReshape cfg.dims rs.shape i.shape }
      | none => i
    let i :=
      if bs = 0 then { i with shape_with_batch_dim := i.shape }
      else { i with shape_with_batch_dim := (bs : Int) :: i.shape }
    (p.1, i)

/-- The number of wildcard slots of the reshape target strictly before
position j. -/
def wildcardCountBefore (target : List Int) (j : Nat) : Nat :=
  ((target.take j).filter (fun d => d = -1)).length

/-- Whether a warmup input is sized into max_zero: ZeroData, or string-typed
RandomData. -/
def warmupZeroClass (m : ModelWarmupInput) : Bool :=
  match m.input_data_type with
  | InputDataTypeCase.kZeroData => true
  | InputDataTypeCase.kRandomData => m.data_type == DataType.TYPE_STRING
  | _ => false

/-- Whether a warmup input is sized into max_random: non-string RandomData. -/
def warmupRandomClass (m : ModelWarmupInput) : Bool :=
  match m.input_data_type with
  | InputDataTypeCase.kRandomData => m.data_type != DataType.TYPE_STRING
  | _ => false


/-- A minimal witness model: one input IN0 FP32 [3], one output OUT0,
max_batch_size 4. -/
def witnessBackend : InferenceBackend :=
  { config :=
      { name := "m",
        input := [{ name := "IN0", data_type := DataType.TYPE_FP32, dims := [3] }],
        output := [{ name := "OUT0", data_type := DataType.TYPE_FP32, dims := [3] }],
        max_batch_size := 4 } }

/-- Scenario-S1-style witness request: IN0 with original shape [2, 3]. -/
def witnessRequest : InferenceRequest :=
  { backend := witnessBackend,
    original_inputs :=
      [("IN0", { name := "IN0", datatype := DataType.TYPE_FP32, original_shape := [2, 3] })] }

/-- The witness request after one PrepareForInference. -/
def witnessPrepared : InferenceRequest := (witnessRequest.PrepareForInference).2

/-- A witness request whose single requested output name is unknown, so
Normalize fails. -/
def witnessBadOutputRequest : InferenceRequest :=
  { backend := witnessBackend,
    original_inputs :=
      [("IN0", { name := "IN0", datatype := DataType.TYPE_FP32, original_shape := [2, 3] })],
    original_requested_outputs := ["NOPE"] }

/-- A two-input batching model for the batch-agreement analysis: IN0 and IN1,
both FP32 [3], max_batch_size 8. -/
def batchMismatchBackend : InferenceBackend :=
  { config :=
      { name := "m",
        input := [{ name := "IN0", data_type := DataType.TYPE_FP32, dims := [3] },
                  { name := "IN1", data_type := DataType.TYPE_FP32, dims := [3] }],
        output := [],
        max_batch_size := 8 } }

/-- A request whose two inputs disagree on the leading dimension (0 vs 5):
the batching loop stores a leading 0 into the still-zero batch_size_, so the
later leading 5 is stored without any mismatch error. -/
def zeroLeadingDimRequest : InferenceRequest :=
  { backend := batchMismatchBackend,
    original_inputs :=
      [("IN0", { name := "IN0", datatype := DataType.TYPE_FP32, original_shape := [0, 3] }),
       ("IN1", { name := "IN1", datatype := DataType.TYPE_FP32, original_shape := [5, 3] })] }

/-- Scenario-S3 witness model: input declares dims [-1, 4] with reshape
target [4, -1], no batching. -/
def reshapeBackend : InferenceBackend :=
  { config :=
      { name := "m",
        input := [{ name := "IN0", data_type := DataType.TYPE_FP32, dims := [-1, 4],
                    reshape := some ⟨[4, -1]⟩ }],
        output := [],
        max_batch_size := 0 } }

/-- Scenario-S3 witness request: IN0 with original shape [7, 4]. -/
def reshapeRequest : InferenceRequest :=
  { backend := reshapeBackend,
    original_inputs :=
      [("IN0", { name := "IN0", datatype := DataType.TYPE_FP32, original_shape := [7, 4] })] }

/-- Scenario-S5 witness source request: shape tensor S (12 bytes holding
[1,2,3] as little-endian i32) and non-shape inputs A (32 bytes) and
B (16 bytes). -/
def nullCloneSource : InferenceRequest :=
  { backend := witnessBackend,
    batch_size := 2,
    original_inputs :=
      [("S", { name := "S", datatype := DataType.TYPE_INT32, original_shape := [3],
               shape := [3], is_shape_tensor := true,
               data := Memory.Reference
                 [⟨100, 0, [1, 0, 0, 0, 2, 0, 0, 0, 3, 0, 0, 0],
                   TRITONSERVER_MemoryType.CPU, 0⟩] }),
       ("A", { name := "A", datatype := DataType.TYPE_FP32, original_shape := [8],
               shape := [8],
               data := Memory.Reference
                 [⟨101, 0, List.replicate 32 7, TRITONSERVER_MemoryType.CPU, 0⟩] }),
       ("B", { name := "B", datatype := DataType.TYPE_FP32, original_shape := [4],
               shape := [4],
               data := Memory.Reference
                 [⟨102, 0, List.replicate 16 9, TRITONSERVER_MemoryType.CPU, 0⟩] })] }

/-- Two distinct requests for the exec-failure witness (rids 1 and 2). -/
def execRequestA : InferenceRequest :=
  { rid := 1, backend := witnessBackend, release_callbacks := [11] }

/-- Second request of the exec-failure witness batch. -/
def execRequestB : InferenceRequest :=
  { rid := 2, backend := witnessBackend }

/-- Witness warmup inputs: a ZeroData FP32 [2] (8 bytes), a string-typed
RandomData [5] (20 bytes via the int32 fallback), and an INT32 RandomData [3]
(12 bytes). -/
def warmupInputsExample : List (String × ModelWarmupInput) :=
  [("I0", { data_type := DataType.TYPE_FP32, dims := [2],
            input_data_type := InputDataTypeCase.kZeroData }),
   ("I1", { data_type := DataType.TYPE_STRING, dims := [5],
            input_data_type := InputDataTypeCase.kRandomData }),
   ("I2", { data_type := DataType.TYPE_INT32, dims := [3],
            input_data_type := InputDataTypeCase.kRandomData })]


/-- The per-entry effect of the batching loop on an input it accepts
(proof-side characterization; the error branch is unreachable on success). -/
def batchPhaseEntry (b : InferenceBackend) (p : String × InferenceRequest.Input) :
    String × InferenceRequest.Input :=
  match b.GetInput p.1 with
  | Except.error _ => p
  | Except.ok cfg =>
    if cfg.is_shape_tensor then
      (p.1, { p.2 with shape := p.2.original_shape, is_shape_tensor := true })
    else (p.1, { p.2 with shape := p.2.original_shape.tail })

/-- The per-entry effect of the no-batching branch of Normalize. -/
def noBatchEntry (p : String × InferenceRequest.Input) :
    String × InferenceRequest.Input :=
  (p.1, { p.2 with shape := p.2.original_shape })

/-- The per-entry effect of the validation loop on an input it accepts
(proof-side characterization; the error branches are unreachable on
success). -/
def validatePhaseEntry (b : InferenceBackend) (bs : Nat)
    (p : String × InferenceRequest.Input) : String × InferenceRequest.Input :=
  match b.GetInput p.1 with
  | Except.error _ => p
  | Except.ok cfg =>
    let i :=
      match cfg.reshape with
      | some rs => { p.2 with shape := applyReshape cfg.dims rs.shape p.2.shape }
      | none => p.2
    if bs = 0 then (p.1, { i with shape_with_batch_dim := i.shape })
    else (p.1, { i with shape_with_batch_dim := (bs : Int) :: i.shape })

/-- The number of shape-tensor inputs of a source input list (each one
consumes a fresh AllocatedMemory identity in the first CopyAsNull pass). -/
def countShapeTensors : List (String × InferenceRequest.Input) → Nat
  | [] => 0
  | p :: rest => (if p.2.is_shape_tensor then 1 else 0) + countShapeTensors rest

/-- The clone input the first CopyAsNull pass builds for one shape-tensor
source input (proof-side characterization of the loop body). -/
def shapeCloneEntry (aid : Nat) (p : String × InferenceRequest.Input) :
    InferenceRequest.Input :=
  { name := p.1, datatype := p.2.datatype, original_shape := p.2.shape,
    shape := p.2.shape, shape_with_batch_dim := p.2.shape,
    data := Memory.Allocated
      (memcpyAlloc aid p.2.data.TotalByteSize (sourceBytesAt0 p.2.data)) }

/-- The clone inputs the first CopyAsNull pass builds, with the running
fresh-allocation counter (proof-side characterization). -/
def shapeCloneEntries (aid : Nat) :
    List (String × InferenceRequest.Input) →
    List (String × InferenceRequest.Input)
  | [] => []
  | p :: rest =>
    if p.2.is_shape_tensor then
      (p.1, shapeCloneEntry aid p) :: shapeCloneEntries (aid + 1) rest
    else shapeCloneEntries aid rest

/-- The clone input the third CopyAsNull pass builds for one non-shape-tensor
source input (proof-side characterization of the loop body). -/
def nullCloneEntry (data : AllocatedMemory) (mx_name : Option String)
    (p : String × InferenceRequest.Input) : String × InferenceRequest.Input :=
  let base : InferenceRequest.Input :=
    { name := p.1, datatype := p.2.datatype, original_shape := p.2.shape,
      shape := p.2.shape, shape_with_batch_dim := p.2.shape,
      data := Memory.Reference [] }
  (p.1,
   if mx_name = some p.1 then { base with data := Memory.Allocated data }
   else
     base.AppendData
       ⟨data.allocId, 0, data.content.take p.2.data.TotalByteSize,
        data.memory_type, data.memory_type_id⟩)

/-- Helper: filtering the user-release predicate out of a pure hook trace
yields nothing. -/
theorem filter_isRelease_hooks (i : Nat) (l : List Nat) :
    (l.map (Event.hook i)).filter Event.isRelease = [] := by
  induction l with
  | nil => rfl
  | cons x xs ih => simp [Event.isRelease, ih]

/-- C9: for every INFER_RUN payload executed on a BackendThread, the
payload's status channel is completed with a success Status regardless of the
plugin exec hook's outcome (its errors surface only as the per-request error
responses of TritonModelInstance::Execute); a non-OK channel status can only
come from an INIT or WARM_UP payload. -/
theorem payload_infer_run_status_always_ok (hooks : PluginHooks) (p : Payload) :
    (p.op_type = Operation.INFER_RUN →
       (p.Execute hooks).channel_status = Status.Success
       ∧ (p.Execute hooks).events =
           TritonModelInstance.Execute hooks.exec_error p.requests)
    ∧ ((p.Execute hooks).channel_status.IsOk = false →
       p.op_type = Operation.INIT ∨ p.op_type = Operation.WARM_UP) := by
  obtain ⟨op, reqs⟩ := p
  cases op <;> simp [Payload.Execute, Status.IsOk, Status.Success]

/-- C9 witness: a concrete INFER_RUN payload whose exec hook fails still
completes its channel with success. -/
theorem payload_infer_run_status_always_ok_witness :
    (Payload.Execute
      ⟨Status.Success, Status.Success, some ⟨TritonErrorCode.Unavailable, "unavailable"⟩⟩
      ⟨Operation.INFER_RUN, []⟩).channel_status = Status.Success :=
  ((payload_infer_run_status_always_ok
      ⟨Status.Success, Status.Success, some ⟨TritonErrorCode.Unavailable, "unavailable"⟩⟩
      ⟨Operation.INFER_RUN, []⟩).1 rfl).1

/-- C7: Release runs the internally registered hooks in reverse registration
order — the hook registered at position p lands at trace position n-1-p, so
later-registered hooks run first and every hook precedes the user release —
clears the hook list (the request handed to the user callback carries none),
and invokes the user release callback exactly once, as the final event. -/
theorem release_runs_hooks_lifo_once (r : InferenceRequest) (flags : Nat) :
    ((r.Release flags).1.length = r.release_callbacks.length + 1)
    ∧ (∀ p, p < r.release_callbacks.length →
        (r.Release flags).1[r.release_callbacks.length - 1 - p]? =
          (r.release_callbacks[p]?).map (Event.hook r.rid))
    ∧ ((r.Release flags).1[r.release_callbacks.length]? =
        some (Event.release r.rid flags))
    ∧ (((r.Release flags).1.filter Event.isRelease).length = 1)
    ∧ ((r.Release flags).2.release_callbacks = []) := by
  refine ⟨?_, ?_, ?_, ?_, ?_⟩
  · simp [InferenceRequest.Release]
  · intro p hp
    have hlt : r.release_callbacks.length - 1 - p <
        (r.release_callbacks.reverse.map (Event.hook r.rid)).length := by
      simp; omega
    rw [InferenceRequest.Release]
    rw [List.getElem?_append_left hlt, List.getElem?_map,
      List.getElem?_reverse (by omega)]
    congr 2
    omega
  · rw [InferenceRequest.Release]
    rw [List.getElem?_append_right (by simp)]
    simp
  · rw [InferenceRequest.Release]
    rw [List.filter_append, filter_isRelease_hooks]
    simp [Event.isRelease]
  · rfl

/-- C7 witness: a request with two registered hooks. -/
theorem release_runs_hooks_lifo_once_witness :
    (InferenceRequest.Release
        { rid := 7,
          backend := { config := { name := "m", input := [], output := [], max_batch_size := 0 } },
          release_callbacks := [10, 20] } 1).1.get? 0 = some (Event.hook 7 20) := by
  have h := (release_runs_hooks_lifo_once
    { rid := 7,
      backend := { config := { name := "m", input := [], output := [], max_batch_size := 0 } },
      release_callbacks := [10, 20] } 1).2.1 1 (by decide)
  simpa using h

/-- Helper: a trace whose events all belong to rid i filters to itself. -/
theorem eventsOf_of_all (t : List Event) (i : Nat) (h : ∀ e ∈ t, e.rid = i) :
    eventsOf t i = t := by
  unfold eventsOf
  refine List.filter_eq_self.mpr ?_
  intro e he
  simp [h e he]

/-- Helper: a trace with no event of rid i filters to nothing. -/
theorem eventsOf_of_none (t : List Event) (i : Nat) (h : ∀ e ∈ t, e.rid ≠ i) :
    eventsOf t i = [] := by
  unfold eventsOf
  refine List.filter_eq_nil_iff.mpr ?_
  intro e he
  simp [h e he]

/-- Helper: every event RespondIfError emits belongs to its request. -/
theorem respondIfError_rids (r : InferenceRequest) (st : Status) (rel : Bool) :
    ∀ e ∈ r.RespondIfErrorEvents st rel, e.rid = r.rid := by
  intro e he
  unfold InferenceRequest.RespondIfErrorEvents at he
  split at he
  · simp at he
  · rcases List.mem_cons.mp he with h | h
    · subst h; rfl
    · split at h
      · unfold InferenceRequest.Release at h
        rcases List.mem_append.mp h with h | h
        · obtain ⟨x, _, rfl⟩ := List.mem_map.mp h
          rfl
        · simp at h
          subst h; rfl
      · simp at h

/-- Helper: every event of the error-branch loop belongs to some request of
the batch. -/
theorem respondAll_rids (st : Status) (l : List InferenceRequest) :
    ∀ e ∈ respondAllWithError st l, ∃ q ∈ l, e.rid = q.rid := by
  induction l with
  | nil => intro e he; simp [respondAllWithError] at he
  | cons q rest ih =>
    intro e he
    unfold respondAllWithError at he
    rcases List.mem_append.mp he with h | h
    · exact ⟨q, List.mem_cons_self q rest, respondIfError_rids q st true e h⟩
    · obtain ⟨q2, hq2, hr⟩ := ih e h
      exact ⟨q2, List.mem_cons_of_mem q hq2, hr⟩

/-- Helper: the per-request sub-trace of the error-branch loop is exactly the
request's own RespondIfError trace, when object identities are distinct. -/
theorem eventsOf_respondAll (st : Status) (requests : List InferenceRequest)
    (hnd : (requests.map InferenceRequest.rid).Nodup)
    (r : InferenceRequest) (hr : r ∈ requests) :
    eventsOf (respondAllWithError st requests) r.rid =
      r.RespondIfErrorEvents st true := by
  induction requests with
  | nil => simp at hr
  | cons q rest ih =>
    rw [List.map_cons, List.nodup_cons] at hnd
    unfold respondAllWithError
    unfold eventsOf
    rw [List.filter_append]
    rcases List.mem_cons.mp hr with h | h
    · subst h
      have h1 : eventsOf (r.RespondIfErrorEvents st true) r.rid =
          r.RespondIfErrorEvents st true :=
        eventsOf_of_all _ _ (respondIfError_rids r st true)
      have h2 : eventsOf (respondAllWithError st rest) r.rid = [] := by
        refine eventsOf_of_none _ _ ?_
        intro e he hcontra
        obtain ⟨q2, hq2, hrid⟩ := respondAll_rids st rest e he
        exact hnd.1 (hcontra ▸ hrid ▸ List.mem_map_of_mem InferenceRequest.rid hq2)
      unfold eventsOf at h1 h2
      rw [h1, h2, List.append_nil]
    · have hne : q.rid ≠ r.rid := by
        intro hcontra
        exact hnd.1 (hcontra ▸ List.mem_map_of_mem InferenceRequest.rid h)
      have h1 : eventsOf (q.RespondIfErrorEvents st true) r.rid = [] := by
        refine eventsOf_of_none _ _ ?_
        intro e he
        rw [respondIfError_rids q st true e he]
        exact hne
      have h2 := ih hnd.2 h
      unfold eventsOf at h1 h2
      rw [h1, h2, List.nil_append]

/-- Helper: the RespondIfError trace of a non-OK status with release. -/
theorem respondIfError_events_not_ok (r : InferenceRequest) (st : Status)
    (h : st.IsOk = false) :
    r.RespondIfErrorEvents st true =
      Event.response r.rid st ::
        (r.release_callbacks.reverse.map (Event.hook r.rid) ++
         [Event.release r.rid TRITONSERVER_REQUEST_RELEASE_ALL]) := by
  unfold InferenceRequest.RespondIfErrorEvents InferenceRequest.Release
  rw [h]
  simp

/-- Helper: the status built from a TRITONSERVER error is never OK. -/
theorem statusOfTritonError_not_ok (e : TritonError) :
    (StatusOfTritonError e).IsOk = false := by
  cases hc : e.code <;>
    simp [StatusOfTritonError, TritonCodeToStatusCode, Status.IsOk, hc]

/-- Helper: restricting a trace to one rid does not change its responses for
that rid. -/
theorem responsesFor_eventsOf (t : List Event) (i : Nat) :
    responsesFor (eventsOf t i) i = responsesFor t i := by
  induction t with
  | nil => rfl
  | cons e t ih =>
    cases e with
    | response j s =>
      by_cases h : j = i <;>
        simp [eventsOf, responsesFor, Event.rid, h] at ih ⊢ <;> exact ih
    | hook j x =>
      by_cases h : j = i <;>
        simp [eventsOf, responsesFor, Event.rid, h] at ih ⊢ <;> exact ih
    | release j f =>
      by_cases h : j = i <;>
        simp [eventsOf, responsesFor, Event.rid, h] at ih ⊢ <;> exact ih

/-- Helper: restricting a trace to one rid does not change its user releases
for that rid. -/
theorem releasesFor_eventsOf (t : List Event) (i : Nat) :
    releasesFor (eventsOf t i) i = releasesFor t i := by
  induction t with
  | nil => rfl
  | cons e t ih =>
    cases e with
    | response j s =>
      by_cases h : j = i <;>
        simp [eventsOf, releasesFor, Event.rid, h] at ih ⊢ <;> exact ih
    | hook j x =>
      by_cases h : j = i <;>
        simp [eventsOf, releasesFor, Event.rid, h] at ih ⊢ <;> exact ih
    | release j f =>
      by_cases h : j = i <;>
        simp [eventsOf, releasesFor, Event.rid, h] at ih ⊢ <;> exact ih

/-- Helper: a pure hook trace holds no responses. -/
theorem responsesFor_hooks (i j : Nat) (l : List Nat) :
    responsesFor (l.map (Event.hook j)) i = [] := by
  induction l with
  | nil => rfl
  | cons x xs ih => simp [responsesFor]

/-- Helper: a pure hook trace holds no user releases. -/
theorem releasesFor_hooks (i j : Nat) (l : List Nat) :
    releasesFor (l.map (Event.hook j)) i = [] := by
  induction l with
  | nil => rfl
  | cons x xs ih => simp [releasesFor]

/-- C1: when the plugin's exec hook fails, TritonModelInstance::Execute emits
for each request of the batch (requests being distinct objects) exactly one
error response carrying the status built from the hook's error, followed by
that request's release hooks and exactly one release with RELEASE_ALL; when
the hook succeeds the instance emits no response and performs no release. -/
theorem instance_execute_error_responds_and_releases
    (e : TritonError) (requests : List InferenceRequest)
    (hnd : (requests.map InferenceRequest.rid).Nodup) :
    (∀ r ∈ requests,
       eventsOf (TritonModelInstance.Execute (some e) requests) r.rid =
         Event.response r.rid (StatusOfTritonError e) ::
           (r.release_callbacks.reverse.map (Event.hook r.rid) ++
            [Event.release r.rid TRITONSERVER_REQUEST_RELEASE_ALL])
       ∧ responsesFor (TritonModelInstance.Execute (some e) requests) r.rid =
           [Event.response r.rid (StatusOfTritonError e)]
       ∧ releasesFor (TritonModelInstance.Execute (some e) requests) r.rid =
           [Event.release r.rid TRITONSERVER_REQUEST_RELEASE_ALL])
    ∧ TritonModelInstance.Execute none requests = [] := by
  constructor
  · intro r hr
    have hev : eventsOf (TritonModelInstance.Execute (some e) requests) r.rid =
        Event.response r.rid (StatusOfTritonError e) ::
          (r.release_callbacks.reverse.map (Event.hook r.rid) ++
           [Event.release r.rid TRITONSERVER_REQUEST_RELEASE_ALL]) := by
      show eventsOf (respondAllWithError (StatusOfTritonError e) requests) r.rid = _
      rw [eventsOf_respondAll (StatusOfTritonError e) requests hnd r hr,
        respondIfError_events_not_ok r _ (statusOfTritonError_not_ok e)]
    refine ⟨hev, ?_, ?_⟩
    · rw [← responsesFor_eventsOf, hev]
      simp [responsesFor, List.filter_append, responsesFor_hooks]
    · rw [← releasesFor_eventsOf, hev]
      simp [releasesFor, List.filter_append, releasesFor_hooks]
  · rfl

/-- Helper: step 1 of Normalize only writes requested_outputs_. -/
theorem normalizeRequestedOutputs_preserves (r : InferenceRequest) :
    (r.normalizeRequestedOutputs).2.original_inputs = r.original_inputs
    ∧ (r.normalizeRequestedOutputs).2.override_inputs = r.override_inputs
    ∧ (r.normalizeRequestedOutputs).2.inputs = r.inputs
    ∧ (r.normalizeRequestedOutputs).2.needs_normalization = r.needs_normalization
    ∧ (r.normalizeRequestedOutputs).2.queue_start_ns = r.queue_start_ns
    ∧ (r.normalizeRequestedOutputs).2.request_start_ns = r.request_start_ns
    ∧ (r.normalizeRequestedOutputs).2.backend = r.backend
    ∧ (r.normalizeRequestedOutputs).2.original_requested_outputs
        = r.original_requested_outputs
    ∧ (r.normalizeRequestedOutputs).2.collect_stats = r.collect_stats
    ∧ (r.normalizeRequestedOutputs).2.rid = r.rid
    ∧ (r.normalizeRequestedOutputs).2.batch_size = r.batch_size
    ∧ (r.normalizeRequestedOutputs).2.priority = r.priority
    ∧ (r.normalizeRequestedOutputs).2.requested_model_version
        = r.requested_model_version
    ∧ (r.normalizeRequestedOutputs).2.release_callbacks = r.release_callbacks
    ∧ (r.normalizeRequestedOutputs).2.response_allocator = r.response_allocator := by
  by_cases h : r.original_requested_outputs.length = 0 <;>
    simp [InferenceRequest.normalizeRequestedOutputs, h]

/-- Helper: the batch phase only writes batch_size_ and the input map. -/
theorem normalizeBatchPhase_preserves (r : InferenceRequest) :
    (r.normalizeBatchPhase).2.override_inputs = r.override_inputs
    ∧ (r.normalizeBatchPhase).2.inputs = r.inputs
    ∧ (r.normalizeBatchPhase).2.needs_normalization = r.needs_normalization
    ∧ (r.normalizeBatchPhase).2.queue_start_ns = r.queue_start_ns
    ∧ (r.normalizeBatchPhase).2.request_start_ns = r.request_start_ns
    ∧ (r.normalizeBatchPhase).2.backend = r.backend
    ∧ (r.normalizeBatchPhase).2.original_requested_outputs
        = r.original_requested_outputs
    ∧ (r.normalizeBatchPhase).2.requested_outputs = r.requested_outputs
    ∧ (r.normalizeBatchPhase).2.collect_stats = r.collect_stats
    ∧ (r.normalizeBatchPhase).2.rid = r.rid
    ∧ (r.normalizeBatchPhase).2.priority = r.priority
    ∧ (r.normalizeBatchPhase).2.requested_model_version = r.requested_model_version
    ∧ (r.normalizeBatchPhase).2.release_callbacks = r.release_callbacks
    ∧ (r.normalizeBatchPhase).2.response_allocator = r.response_allocator := by
  unfold InferenceRequest.normalizeBatchPhase
  by_cases h : r.backend.config.max_batch_size = 0
  · simp [h]
  · rcases hl : normalizeBatchLoop r.backend r.ModelName 0 r.original_inputs with
      ⟨st, bs, oi⟩
    simp [h, hl]

/-- Helper: the validation phase only writes the input map. -/
theorem normalizeValidatePhase_preserves (r : InferenceRequest) :
    (r.normalizeValidatePhase).2.override_inputs = r.override_inputs
    ∧ (r.normalizeValidatePhase).2.inputs = r.inputs
    ∧ (r.normalizeValidatePhase).2.needs_normalization = r.needs_normalization
    ∧ (r.normalizeValidatePhase).2.queue_start_ns = r.queue_start_ns
    ∧ (r.normalizeValidatePhase).2.request_start_ns = r.request_start_ns
    ∧ (r.normalizeValidatePhase).2.backend = r.backend
    ∧ (r.normalizeValidatePhase).2.original_requested_outputs
        = r.original_requested_outputs
    ∧ (r.normalizeValidatePhase).2.requested_outputs = r.requested_outputs
    ∧ (r.normalizeValidatePhase).2.collect_stats = r.collect_stats
    ∧ (r.normalizeValidatePhase).2.rid = r.rid
    ∧ (r.normalizeValidatePhase).2.batch_size = r.batch_size
    ∧ (r.normalizeValidatePhase).2.priority = r.priority
    ∧ (r.normalizeValidatePhase).2.requested_model_version = r.requested_model_version
    ∧ (r.normalizeValidatePhase).2.release_callbacks = r.release_callbacks
    ∧ (r.normalizeValidatePhase).2.response_allocator = r.response_allocator := by
  unfold InferenceRequest.normalizeValidatePhase
  rcases hl : validateInputsLoop r.backend r.ModelName r.batch_size r.original_inputs with
    ⟨st, oi⟩
  simp [hl]

/-- Helper: Normalize only writes requested_outputs_, batch_size_ and the
original-input map; every other member is untouched. -/
theorem Normalize_preserves (r : InferenceRequest) :
    (r.Normalize).2.override_inputs = r.override_inputs
    ∧ (r.Normalize).2.inputs = r.inputs
    ∧ (r.Normalize).2.needs_normalization = r.needs_normalization
    ∧ (r.Normalize).2.queue_start_ns = r.queue_start_ns
    ∧ (r.Normalize).2.request_start_ns = r.request_start_ns
    ∧ (r.Normalize).2.backend = r.backend
    ∧ (r.Normalize).2.original_requested_outputs = r.original_requested_outputs
    ∧ (r.Normalize).2.collect_stats = r.collect_stats
    ∧ (r.Normalize).2.rid = r.rid
    ∧ (r.Normalize).2.priority = r.priority
    ∧ (r.Normalize).2.requested_model_version = r.requested_model_version
    ∧ (r.Normalize).2.release_callbacks = r.release_callbacks
    ∧ (r.Normalize).2.response_allocator = r.response_allocator := by
  rcases h0 : r.normalizeRequestedOutputs with ⟨st0, r0⟩
  have p0 := normalizeRequestedOutputs_preserves r
  rw [h0] at p0
  obtain ⟨q1, q2, q3, q4, q5, q6, q7, q8, q9, q10, q11, q12, q13, q14, q15⟩ := p0
  have p1 := normalizeBatchPhase_preserves r0
  rcases h1 : r0.normalizeBatchPhase with ⟨st1, r1⟩
  rw [h1] at p1
  obtain ⟨w1, w2, w3, w4, w5, w6, w7, w8, w9, w10, w11, w12, w13, w14⟩ := p1
  have p2 := normalizeValidatePhase_preserves r1
  obtain ⟨v1, v2, v3, v4, v5, v6, v7, v8, v9, v10, v11, v12, v13, v14, v15⟩ := p2
  simp only [InferenceRequest.Normalize, h0, h1]
  by_cases hb : st0.IsOk
  · by_cases hlen : r0.original_inputs.length = r0.backend.config.input.length
    · by_cases hb1 : st1.IsOk
      · by_cases hmax : int32OfUInt32 r1.batch_size > r1.backend.config.max_batch_size
        · simp only [hb, hlen, hb1, hmax]
          simp_all
        · simp only [hb, hlen, hb1, hmax]
          simp_all
      · simp only [hb, hlen, hb1]
        simp_all
    · simp only [hb, hlen]
      simp_all
  · simp only [hb]
    simp_all

/-- Helper: the fields of the cleared-for-prepare state. -/
theorem clearedForPrepare_fields (r : InferenceRequest) :
    r.clearedForPrepare.inputs = []
    ∧ r.clearedForPrepare.override_inputs = []
    ∧ r.clearedForPrepare.needs_normalization = r.needs_normalization
    ∧ r.clearedForPrepare.original_inputs = r.original_inputs := by
  simp [InferenceRequest.clearedForPrepare]

/-- C10: when PrepareForInference returns an error (Normalize failed), the
request's actual-input view and override table — cleared on entry and only
repopulated after a successful Normalize — are left empty, and
needs_normalization_ is still set (it is cleared only after Normalize
succeeds), so the next PrepareForInference runs Normalize again. -/
theorem prepare_error_leaves_cleared_tables (r : InferenceRequest) (st : Status)
    (r1 : InferenceRequest) (h : r.PrepareForInference = (st, r1))
    (herr : st.IsOk = false) :
    r1.inputs = [] ∧ r1.override_inputs = [] ∧ r1.needs_normalization = true := by
  obtain ⟨hc1, hc2, hc3, hc4⟩ := clearedForPrepare_fields r
  simp only [InferenceRequest.PrepareForInference] at h
  rcases hN : r.clearedForPrepare.Normalize with ⟨stN, rN⟩
  have pres := Normalize_preserves r.clearedForPrepare
  rw [hN] at pres h
  by_cases hn : r.clearedForPrepare.needs_normalization
  · rw [if_pos hn] at h
    by_cases hokN : stN.IsOk
    · rw [if_pos hokN] at h
      have hst : Status.Success = st := congrArg Prod.fst h
      rw [← hst] at herr
      simp [Status.IsOk, Status.Success] at herr
    · rw [if_neg hokN] at h
      have hr1 : rN = r1 := congrArg Prod.snd h
      subst hr1
      refine ⟨?_, ?_, ?_⟩
      · rw [pres.2.1, hc1]
      · rw [pres.1, hc2]
      · rw [pres.2.2.1]
        exact hn
  · rw [if_neg hn] at h
    have hst : Status.Success = st := congrArg Prod.fst h
    rw [← hst] at herr
    simp [Status.IsOk, Status.Success] at herr

/-- C10 witness: a request with an unknown requested-output name. -/
theorem prepare_error_leaves_cleared_tables_witness :
    (witnessBadOutputRequest.PrepareForInference).2.inputs = []
    ∧ (witnessBadOutputRequest.PrepareForInference).2.override_inputs = []
    ∧ (witnessBadOutputRequest.PrepareForInference).2.needs_normalization = true :=
  prepare_error_leaves_cleared_tables witnessBadOutputRequest
    (witnessBadOutputRequest.PrepareForInference).1
    (witnessBadOutputRequest.PrepareForInference).2 rfl (by decide)

/-- C4: PrepareForInference is idempotent — after a successful call, calling
it again succeeds and leaves the request unchanged: the actual-input view is
rebuilt to the same originals view, the override table is still empty, the
timing counters are still zero, and needs_normalization_ is still clear so
Normalize is not re-run. -/
theorem prepare_for_inference_idempotent (r : InferenceRequest) (st : Status)
    (r1 : InferenceRequest) (h : r.PrepareForInference = (st, r1))
    (hok : st.IsOk = true) :
    r1.PrepareForInference = (Status.Success, r1) := by
  have hfin : ∀ q : InferenceRequest, q.needs_normalization = false →
      q.inputs = q.original_inputs → q.override_inputs = [] →
      q.queue_start_ns = 0 → q.request_start_ns = 0 →
      q.PrepareForInference = (Status.Success, q) := by
    intro q h5 h1 h2 h3 h4
    cases q
    simp only at h1 h2 h3 h4 h5
    subst h1
    subst h2
    subst h3
    subst h4
    subst h5
    simp [InferenceRequest.PrepareForInference, InferenceRequest.clearedForPrepare,
      InferenceRequest.finishPrepare]
  obtain ⟨hc1, hc2, hc3, hc4⟩ := clearedForPrepare_fields r
  simp only [InferenceRequest.PrepareForInference] at h
  rcases hN : r.clearedForPrepare.Normalize with ⟨stN, rN⟩
  have pres := Normalize_preserves r.clearedForPrepare
  rw [hN] at pres h
  by_cases hn : r.clearedForPrepare.needs_normalization
  · rw [if_pos hn] at h
    by_cases hokN : stN.IsOk
    · rw [if_pos hokN] at h
      have hr1 : InferenceRequest.finishPrepare { rN with needs_normalization := false } = r1 :=
        congrArg Prod.snd h
      subst hr1
      refine hfin _ ?_ ?_ ?_ ?_ ?_
      · simp [InferenceRequest.finishPrepare]
      · simp [InferenceRequest.finishPrepare]
      · simp [InferenceRequest.finishPrepare]
        rw [pres.1, hc2]
      · simp [InferenceRequest.finishPrepare]
      · simp [InferenceRequest.finishPrepare]
    · rw [if_neg hokN] at h
      have hstN : stN = st := congrArg Prod.fst h
      rw [← hstN] at hok
      exact absurd hok hokN
  · rw [if_neg hn] at h
    have hr1 : r.clearedForPrepare.finishPrepare = r1 := congrArg Prod.snd h
    subst hr1
    rw [Bool.not_eq_true] at hn
    refine hfin _ ?_ ?_ ?_ ?_ ?_
    · simp [InferenceRequest.finishPrepare, hn]
    · simp [InferenceRequest.finishPrepare]
    · simp [InferenceRequest.finishPrepare, hc2]
    · simp [InferenceRequest.finishPrepare]
    · simp [InferenceRequest.finishPrepare]

/-- C4 witness: the S1-style request, prepared twice. -/
theorem prepare_for_inference_idempotent_witness :
    witnessPrepared.PrepareForInference = (Status.Success, witnessPrepared) :=
  prepare_for_inference_idempotent witnessRequest
    (witnessRequest.PrepareForInference).1 witnessPrepared rfl (by decide)

/-- C1 witness: a two-request batch against an UNAVAILABLE exec hook; the
second request's sub-trace is one error response then one RELEASE_ALL
release. -/
theorem instance_execute_error_responds_and_releases_witness :
    eventsOf (TritonModelInstance.Execute (some ⟨TritonErrorCode.Unavailable, "u"⟩)
        [execRequestA, execRequestB]) 2 =
      [Event.response 2 (StatusOfTritonError ⟨TritonErrorCode.Unavailable, "u"⟩),
       Event.release 2 TRITONSERVER_REQUEST_RELEASE_ALL] := by
  have h := ((instance_execute_error_responds_and_releases
      ⟨TritonErrorCode.Unavailable, "u"⟩ [execRequestA, execRequestB]
      (by decide)).1 execRequestB (by decide)).1
  simpa [execRequestB] using h

/-- Helper: membership in a std::set-style insert. -/
theorem SetInsert_mem (s : List String) (x y : String) :
    y ∈ SetInsert s x ↔ y ∈ s ∨ y = x := by
  by_cases h : x ∈ s
  · simp only [SetInsert, if_pos h]
    constructor
    · exact Or.inl
    · rintro (hy | rfl)
      · exact hy
      · exact h
  · simp [SetInsert, if_neg h]

/-- Helper: the set insert never empties a set. -/
theorem SetInsert_ne_nil (s : List String) (x : String) : SetInsert s x ≠ [] := by
  by_cases h : x ∈ s
  · simp only [SetInsert, if_pos h]
    intro hc
    rw [hc] at h
    simp at h
  · simp [SetInsert, if_neg h]

/-- Helper: membership in the fold that collects all model-config output
names. -/
theorem foldl_SetInsert_mem (outputs : List ModelOutput) (init : List String)
    (x : String) :
    x ∈ outputs.foldl (fun s o => SetInsert s o.name) init ↔
      x ∈ init ∨ x ∈ outputs.map ModelOutput.name := by
  induction outputs generalizing init with
  | nil => simp
  | cons o os ih =>
    rw [List.foldl_cons, ih, SetInsert_mem]
    simp
    tauto

/-- Helper: collecting at least one output name yields a non-empty set. -/
theorem foldl_SetInsert_ne_nil (outputs : List ModelOutput) (init : List String)
    (h : init ≠ [] ∨ outputs ≠ []) :
    outputs.foldl (fun s o => SetInsert s o.name) init ≠ [] := by
  induction outputs generalizing init with
  | nil =>
    rcases h with h | h
    · simpa using h
    · simp at h
  | cons o os ih =>
    rw [List.foldl_cons]
    exact ih _ (Or.inl (SetInsert_ne_nil init o.name))

/-- Helper: GetOutput failures are INVALID_ARG. -/
theorem GetOutput_error_invalidarg (b : InferenceBackend) (n : String) (st : Status)
    (h : b.GetOutput n = Except.error st) : st.code = StatusCode.InvalidArg := by
  unfold InferenceBackend.GetOutput at h
  rcases hf : b.config.output.find? (fun io => io.name == n) with _ | io <;>
    rw [hf] at h <;> simp at h
  rw [← h]

/-- Helper: the requested-output validation loop succeeds exactly when every
name resolves. -/
theorem validateOutputNames_ok_iff (b : InferenceBackend) (names : List String) :
    (validateOutputNames b names).IsOk = true ↔
      ∀ n ∈ names, ∃ oc, b.GetOutput n = Except.ok oc := by
  induction names with
  | nil => simp [validateOutputNames, Status.IsOk, Status.Success]
  | cons n rest ih =>
    unfold validateOutputNames
    rcases hg : b.GetOutput n with st | oc
    · have hcode := GetOutput_error_invalidarg b n st hg
      constructor
      · intro hok
        exfalso
        rw [Status.IsOk, hcode] at hok
        simp at hok
      · intro hall
        obtain ⟨oc, hoc⟩ := hall n (List.mem_cons_self n rest)
        rw [hg] at hoc
        cases hoc
    · rw [ih]
      constructor
      · intro hall m hm
        rcases List.mem_cons.mp hm with rfl | hm2
        · exact ⟨oc, hg⟩
        · exact hall m hm2
      · intro hall m hm
        exact hall m (List.mem_cons_of_mem n hm)

/-- Helper: when the requested-output validation loop fails, its status code
is INVALID_ARG. -/
theorem validateOutputNames_err_code (b : InferenceBackend) (names : List String)
    (h : (validateOutputNames b names).IsOk = false) :
    (validateOutputNames b names).code = StatusCode.InvalidArg := by
  induction names with
  | nil => simp [validateOutputNames, Status.IsOk, Status.Success] at h
  | cons n rest ih =>
    unfold validateOutputNames at h ⊢
    rcases hg : b.GetOutput n with st2 | oc
    · exact GetOutput_error_invalidarg b n st2 hg
    · rw [hg] at h
      exact ih h

/-- Helper: a step-1 failure is the whole of Normalize. -/
theorem Normalize_step1_err (r : InferenceRequest) (st0 : Status)
    (r0 : InferenceRequest) (h0 : r.normalizeRequestedOutputs = (st0, r0))
    (herr : st0.IsOk = false) : r.Normalize = (st0, r0) := by
  simp [InferenceRequest.Normalize, h0, herr]

/-- Helper: a successful Normalize implies a successful step 1. -/
theorem Normalize_ok_step1_ok (r : InferenceRequest)
    (h : (r.Normalize).1.IsOk = true) :
    ((r.normalizeRequestedOutputs).1).IsOk = true := by
  rcases h0 : r.normalizeRequestedOutputs with ⟨st0, r0⟩
  by_cases hb : st0.IsOk
  · simpa [h0] using hb
  · rw [Normalize_step1_err r st0 r0 h0 (by simpa using hb)] at h
    exact absurd h hb

/-- Helper: the later phases of Normalize never write requested_outputs_,
so the final value is the step-1 value. -/
theorem Normalize_requested_outputs_eq (r : InferenceRequest) :
    (r.Normalize).2.requested_outputs =
      (r.normalizeRequestedOutputs).2.requested_outputs := by
  rcases h0 : r.normalizeRequestedOutputs with ⟨st0, r0⟩
  have p1 := normalizeBatchPhase_preserves r0
  rcases h1 : r0.normalizeBatchPhase with ⟨st1, r1⟩
  rw [h1] at p1
  have p2 := normalizeValidatePhase_preserves r1
  simp only [InferenceRequest.Normalize, h0, h1]
  by_cases hb : st0.IsOk
  · by_cases hlen : r0.original_inputs.length = r0.backend.config.input.length
    · by_cases hb1 : st1.IsOk
      · by_cases hmax : int32OfUInt32 r1.batch_size > r1.backend.config.max_batch_size
        · simp only [hb, hlen, hb1, hmax]
          simp_all
        · simp only [hb, hlen, hb1, hmax]
          simp_all
      · simp only [hb, hlen, hb1]
        simp_all
    · simp only [hb, hlen]
      simp_all
  · simp [hb]

/-- C2: after a successful Normalize the effective requested-output set
(ImmutableRequestedOutputs) is the set of all model-declared outputs when no
output was requested, and exactly the requested set otherwise, in which case
every requested name resolves via GetOutput; an unresolvable requested name
makes Normalize fail with INVALID_ARG. -/
theorem normalize_effective_requested_outputs (r : InferenceRequest) :
    ((r.Normalize).1.IsOk = true → r.original_requested_outputs = [] →
       ∀ x, x ∈ (r.Normalize).2.ImmutableRequestedOutputs ↔
         x ∈ r.backend.config.output.map ModelOutput.name)
    ∧ ((r.Normalize).1.IsOk = true → r.original_requested_outputs ≠ [] →
       (r.Normalize).2.ImmutableRequestedOutputs = r.original_requested_outputs
       ∧ (∀ n ∈ r.original_requested_outputs,
            ∃ oc, r.backend.GetOutput n = Except.ok oc))
    ∧ ((∃ n ∈ r.original_requested_outputs,
          ∃ st, r.backend.GetOutput n = Except.error st) →
       (r.Normalize).1.IsOk = false
       ∧ (r.Normalize).1.code = StatusCode.InvalidArg) := by
  have hreq := Normalize_requested_outputs_eq r
  have horig := (Normalize_preserves r).2.2.2.2.2.2.1
  refine ⟨?_, ?_, ?_⟩
  · intro hok hempty
    have hlen : r.original_requested_outputs.length = 0 := by simp [hempty]
    have h0 : (r.normalizeRequestedOutputs).2.requested_outputs =
        r.backend.config.output.foldl (fun s o => SetInsert s o.name) [] := by
      simp [InferenceRequest.normalizeRequestedOutputs, hlen]
    intro x
    unfold InferenceRequest.ImmutableRequestedOutputs
    rw [hreq, h0, horig, hempty]
    by_cases hnil : r.backend.config.output = []
    · simp [hnil]
    · have hne := foldl_SetInsert_ne_nil r.backend.config.output [] (Or.inr hnil)
      have hlne : ¬ (r.backend.config.output.foldl
          (fun s o => SetInsert s o.name) []).length = 0 := by
        simpa [List.length_eq_zero] using hne
      rw [if_neg hlne, foldl_SetInsert_mem]
      simp
  · intro hok hnonempty
    have hlen : ¬ r.original_requested_outputs.length = 0 := by
      simpa [List.length_eq_zero] using hnonempty
    have h0req : (r.normalizeRequestedOutputs).2.requested_outputs = [] := by
      simp [InferenceRequest.normalizeRequestedOutputs, hlen]
    have h0st : (r.normalizeRequestedOutputs).1 =
        validateOutputNames r.backend r.original_requested_outputs := by
      simp [InferenceRequest.normalizeRequestedOutputs, hlen]
    constructor
    · unfold InferenceRequest.ImmutableRequestedOutputs
      rw [hreq, h0req, horig]
      simp
    · have hv : (validateOutputNames r.backend r.original_requested_outputs).IsOk
          = true := by
        rw [← h0st]
        exact Normalize_ok_step1_ok r hok
      exact (validateOutputNames_ok_iff _ _).mp hv
  · rintro ⟨n, hn, st, herr⟩
    have hlen : ¬ r.original_requested_outputs.length = 0 := by
      intro hc
      rw [List.length_eq_zero] at hc
      rw [hc] at hn
      simp at hn
    have h0st : (r.normalizeRequestedOutputs).1 =
        validateOutputNames r.backend r.original_requested_outputs := by
      simp [InferenceRequest.normalizeRequestedOutputs, hlen]
    have hvfail : (validateOutputNames r.backend r.original_requested_outputs).IsOk
        = false := by
      rw [Bool.eq_false_iff]
      intro hv
      obtain ⟨oc, hoc⟩ := (validateOutputNames_ok_iff _ _).mp hv n hn
      rw [herr] at hoc
      cases hoc
    rcases h0 : r.normalizeRequestedOutputs with ⟨st0, r0⟩
    have hst0 : st0 = validateOutputNames r.backend r.original_requested_outputs := by
      rw [← h0st, h0]
    have hnorm := Normalize_step1_err r st0 r0 h0 (by rw [hst0]; exact hvfail)
    rw [hnorm]
    constructor
    · rw [hst0]
      exact hvfail
    · rw [hst0]
      exact validateOutputNames_err_code _ _ hvfail

/-- C2 witness: with no requested outputs, OUT0 is in the effective set. -/
theorem normalize_effective_requested_outputs_witness :
    "OUT0" ∈ ((witnessRequest.Normalize).2.ImmutableRequestedOutputs) :=
  (((normalize_effective_requested_outputs witnessRequest).1
      (by decide) (by decide)) "OUT0").mpr (by decide)

/-- Helper: the sizing loop computes, for each accumulator, the max of the
per-batch byte sizes of its class of inputs. -/
theorem warmupSizingLoop_spec (l : List (String × ModelWarmupInput)) :
    ∀ mz mr res, warmupSizingLoop mz mr l = Except.ok res →
      res.1 = ((l.filter (fun p => warmupZeroClass p.2)).map
          (fun p => warmupBatchByteSize p.2)).foldl max mz
      ∧ res.2 = ((l.filter (fun p => warmupRandomClass p.2)).map
          (fun p => warmupBatchByteSize p.2)).foldl max mr := by
  induction l with
  | nil =>
    intro mz mr res h
    simp [warmupSizingLoop] at h
    simp [← h]
  | cons p rest ih =>
    intro mz mr res h
    obtain ⟨iname, m⟩ := p
    unfold warmupSizingLoop at h
    by_cases he : GetElementCount m.dims = -1
    · simp [he] at h
    · rw [if_neg he] at h
      rcases hk : m.input_data_type with _ | _ | fb | _
      · rw [hk] at h
        have hi := ih _ _ _ h
        have hzc : warmupZeroClass m = true := by simp [warmupZeroClass, hk]
        have hrc : warmupRandomClass m = false := by simp [warmupRandomClass, hk]
        constructor
        · rw [hi.1]
          simp [List.filter_cons, hzc, hrc]
          congr 1
          exact max_comm _ _
        · rw [hi.2]
          simp [List.filter_cons, hzc, hrc]
      · rw [hk] at h
        by_cases hs : m.data_type = DataType.TYPE_STRING
        · rw [if_pos hs] at h
          have hi := ih _ _ _ h
          have hzc : warmupZeroClass m = true := by simp [warmupZeroClass, hk, hs]
          have hrc : warmupRandomClass m = false := by simp [warmupRandomClass, hk, hs]
          constructor
          · rw [hi.1]
            simp [List.filter_cons, hzc, hrc]
            congr 1
            exact max_comm _ _
          · rw [hi.2]
            simp [List.filter_cons, hzc, hrc]
        · rw [if_neg hs] at h
          have hi := ih _ _ _ h
          have hzc : warmupZeroClass m = false := by simp [warmupZeroClass, hk, hs]
          have hrc : warmupRandomClass m = true := by simp [warmupRandomClass, hk, hs]
          constructor
          · rw [hi.1]
            simp [List.filter_cons, hzc, hrc]
          · rw [hi.2]
            simp [List.filter_cons, hzc, hrc]
            congr 1
            exact max_comm _ _
      · rw [hk] at h
        have hi := ih _ _ _ h
        have hzc : warmupZeroClass m = false := by simp [warmupZeroClass, hk]
        have hrc : warmupRandomClass m = false := by simp [warmupRandomClass, hk]
        constructor
        · rw [hi.1]
          simp [List.filter_cons, hzc, hrc]
        · rw [hi.2]
          simp [List.filter_cons, hzc, hrc]
      · rw [hk] at h
        have hi := ih _ _ _ h
        have hzc : warmupZeroClass m = false := by simp [warmupZeroClass, hk]
        have hrc : warmupRandomClass m = false := by simp [warmupRandomClass, hk]
        constructor
        · rw [hi.1]
          simp [List.filter_cons, hzc, hrc]
        · rw [hi.2]
          simp [List.filter_cons, hzc, hrc]

/-- C8: the warmup sizing pass computes max_zero as the maximum per-batch
byte size over the ZeroData inputs together with the string-typed RandomData
inputs, and max_random as the maximum over the non-string RandomData inputs;
the zero slab is pinned-host, max_zero bytes long, zero-filled; and the
request-construction pass serves string-typed RandomData inputs from the
zero slab. -/
theorem warmup_sizing_max_and_string_random
    (inputs : List (String × ModelWarmupInput)) (mz mr : Int)
    (h : warmupSizingLoop 0 0 inputs = Except.ok (mz, mr)) :
    mz = ((inputs.filter (fun p => warmupZeroClass p.2)).map
        (fun p => warmupBatchByteSize p.2)).foldl max 0
    ∧ mr = ((inputs.filter (fun p => warmupRandomClass p.2)).map
        (fun p => warmupBatchByteSize p.2)).foldl max 0
    ∧ (∀ aid, (warmupZeroData mz aid).memory_type = TRITONSERVER_MemoryType.CPU_PINNED
        ∧ (warmupZeroData mz aid).content.length = mz.toNat
        ∧ ∀ byte ∈ (warmupZeroData mz aid).content, byte = 0)
    ∧ (∀ p ∈ inputs, p.2.input_data_type = InputDataTypeCase.kRandomData →
        p.2.data_type = DataType.TYPE_STRING →
        warmupBufferChoice p.2 = WarmupBufferChoice.zeroBuffer) := by
  have hs := warmupSizingLoop_spec inputs 0 0 (mz, mr) h
  refine ⟨hs.1, hs.2, ?_, ?_⟩
  · intro aid
    refine ⟨rfl, by simp [warmupZeroData], ?_⟩
    intro byte hb
    simp [warmupZeroData] at hb
    exact hb.2
  · intro p _ hk hstr
    simp [warmupBufferChoice, hk, hstr]

/-- C8 witness: zero/string-random/int32-random inputs give max_zero 20
(string fallback 5*4) and max_random 12, and the string-random input reads
from the zero slab. -/
theorem warmup_sizing_max_and_string_random_witness :
    (20 : Int) = ((warmupInputsExample.filter (fun p => warmupZeroClass p.2)).map
        (fun p => warmupBatchByteSize p.2)).foldl max 0 :=
  (warmup_sizing_max_and_string_random warmupInputsExample 20 12 rfl).1

/-- Helper: GetInput failures are INVALID_ARG. -/
theorem GetInput_error_invalidarg (b : InferenceBackend) (n : String) (st : Status)
    (h : b.GetInput n = Except.error st) : st.code = StatusCode.InvalidArg := by
  unfold InferenceBackend.GetInput at h
  rcases hf : b.config.input.find? (fun io => io.name == n) with _ | io <;>
    rw [hf] at h <;> simp at h
  rw [← h]

/-- Helper: the batching loop, on success, maps every entry through
batchPhaseEntry, folds the leading dimensions of the resolvable
non-shape-tensor inputs into the running uint32 batch size, passes the
agreement check on those dimensions, and has required every such input's
original shape to be non-empty and every input to resolve. -/
theorem normalizeBatchLoop_ok_map (b : InferenceBackend) (mname : String) :
    ∀ (l : List (String × InferenceRequest.Input)) (bs0 : Nat) (st : Status)
      (bs : Nat) (l' : List (String × InferenceRequest.Input)),
      normalizeBatchLoop b mname bs0 l = (st, bs, l') → st.IsOk = true →
      l' = l.map (batchPhaseEntry b)
      ∧ bs = runningBatch bs0 (nonShapeLeadingDims b l)
      ∧ batchDimsConsistent bs0 (nonShapeLeadingDims b l) = true
      ∧ (∀ p ∈ l, ∀ cfg, b.GetInput p.1 = Except.ok cfg →
          cfg.is_shape_tensor = false → p.2.original_shape ≠ [])
      ∧ (∀ p ∈ l, ∃ cfg, b.GetInput p.1 = Except.ok cfg) := by
  intro l
  induction l with
  | nil =>
    intro bs0 st bs l' h hok
    simp only [normalizeBatchLoop, Prod.mk.injEq] at h
    obtain ⟨h1, h2, h3⟩ := h
    subst h1
    subst h2
    subst h3
    refine ⟨by simp, ?_, ?_, by simp, by simp⟩
    · simp [nonShapeLeadingDims, runningBatch]
    · simp [nonShapeLeadingDims, batchDimsConsistent]
  | cons p rest ih =>
    intro bs0 st bs l' h hok
    obtain ⟨n, i⟩ := p
    unfold normalizeBatchLoop at h
    split at h
    · next st2 hg =>
      simp only [Prod.mk.injEq] at h
      have hc2 := GetInput_error_invalidarg b n st2 hg
      rw [← h.1] at hok
      simp [Status.IsOk, hc2] at hok
    · next cfg hg =>
      split at h
      · next hshape =>
        rcases hres : normalizeBatchLoop b mname bs0 rest with ⟨st3, bs3, rest3⟩
        simp only [Prod.mk.injEq] at h
        simp only [hres] at h
        obtain ⟨h1, h2, h3⟩ := h
        subst h1
        subst h2
        subst h3
        obtain ⟨m1, m2, m3, m4, m5⟩ := ih _ _ _ _ hres hok
        refine ⟨?_, ?_, ?_, ?_, ?_⟩
        · simp [List.map_cons, batchPhaseEntry, hg, hshape, m1]
        · simpa [nonShapeLeadingDims, hg, hshape] using m2
        · simpa [nonShapeLeadingDims, hg, hshape] using m3
        · intro q hq cfg2 hcfg2 hns
          rcases List.mem_cons.mp hq with rfl | hq2
          · rw [hg] at hcfg2
            injection hcfg2 with he
            rw [← he] at hns
            rw [hshape] at hns
            cases hns
          · exact m4 q hq2 cfg2 hcfg2 hns
        · intro q hq
          rcases List.mem_cons.mp hq with rfl | hq2
          · exact ⟨cfg, hg⟩
          · exact m5 q hq2
      · next hshape =>
        have hshapeF : cfg.is_shape_tensor = false := by simpa using hshape
        split at h
        · next hemp =>
          simp only [Prod.mk.injEq] at h
          rw [← h.1] at hok
          simp [Status.IsOk] at hok
        · next hemp =>
          split at h
          · next hbs0 =>
            rcases hres : normalizeBatchLoop b mname
                (uint32OfInt64 (i.original_shape.headD 0)) rest with ⟨st3, bs3, rest3⟩
            simp only [Prod.mk.injEq] at h
            simp only [hres] at h
            obtain ⟨h1, h2, h3⟩ := h
            subst h1
            subst h2
            subst h3
            obtain ⟨m1, m2, m3, m4, m5⟩ := ih _ _ _ _ hres hok
            refine ⟨?_, ?_, ?_, ?_, ?_⟩
            · simp [List.map_cons, batchPhaseEntry, hg, hshapeF, m1]
            · rw [m2]
              simp [nonShapeLeadingDims, hg, hshapeF, runningBatch, hbs0]
            · simpa [nonShapeLeadingDims, hg, hshapeF, batchDimsConsistent, hbs0]
                using m3
            · intro q hq cfg2 hcfg2 hns
              rcases List.mem_cons.mp hq with rfl | hq2
              · intro hcontra
                rw [hcontra] at hemp
                simp at hemp
              · exact m4 q hq2 cfg2 hcfg2 hns
            · intro q hq
              rcases List.mem_cons.mp hq with rfl | hq2
              · exact ⟨cfg, hg⟩
              · exact m5 q hq2
          · next hbs0 =>
            split at h
            · next hmis =>
              simp only [Prod.mk.injEq] at h
              rw [← h.1] at hok
              simp [Status.IsOk] at hok
            · next hmis =>
              rcases hres : normalizeBatchLoop b mname bs0 rest with ⟨st3, bs3, rest3⟩
              simp only [Prod.mk.injEq] at h
              simp only [hres] at h
              obtain ⟨h1, h2, h3⟩ := h
              subst h1
              subst h2
              subst h3
              obtain ⟨m1, m2, m3, m4, m5⟩ := ih _ _ _ _ hres hok
              rw [not_not] at hmis
              refine ⟨?_, ?_, ?_, ?_, ?_⟩
              · simp [List.map_cons, batchPhaseEntry, hg, hshapeF, m1]
              · rw [m2]
                simp [nonShapeLeadingDims, hg, hshapeF, runningBatch, hbs0]
              · simp [nonShapeLeadingDims, hg, hshapeF, batchDimsConsistent, hbs0, m3]
                simpa using hmis
              · intro q hq cfg2 hcfg2 hns
                rcases List.mem_cons.mp hq with rfl | hq2
                · intro hcontra
                  rw [hcontra] at hemp
                  simp at hemp
                · exact m4 q hq2 cfg2 hcfg2 hns
              · intro q hq
                rcases List.mem_cons.mp hq with rfl | hq2
                · exact ⟨cfg, hg⟩
                · exact m5 q hq2

/-- Helper: the validation loop, on success, maps every entry through
validatePhaseEntry. -/
theorem validateInputsLoop_ok_map (b : InferenceBackend) (mname : String)
    (bs : Nat) :
    ∀ (l : List (String × InferenceRequest.Input)) (st : Status)
      (l' : List (String × InferenceRequest.Input)),
      validateInputsLoop b mname bs l = (st, l') → st.IsOk = true →
      l' = l.map (validatePhaseEntry b bs)
      ∧ (∀ p ∈ l, ∃ cfg, b.GetInput p.1 = Except.ok cfg) := by
  intro l
  induction l with
  | nil =>
    intro st l' h hok
    simp only [validateInputsLoop, Prod.mk.injEq] at h
    simp [← h.2]
  | cons p rest ih =>
    intro st l' h hok
    obtain ⟨n, i⟩ := p
    unfold validateInputsLoop at h
    split at h
    · next st2 hg =>
      simp only [Prod.mk.injEq] at h
      have hc2 := GetInput_error_invalidarg b n st2 hg
      rw [← h.1] at hok
      simp [Status.IsOk, hc2] at hok
    · next cfg hg =>
      split at h
      · next hdt =>
        simp only [Prod.mk.injEq] at h
        rw [← h.1] at hok
        simp [Status.IsOk] at hok
      · next hdt =>
        split at h
        · next hdims =>
          simp only [Prod.mk.injEq] at h
          rw [← h.1] at hok
          simp [Status.IsOk] at hok
        · next hdims =>
          rcases hres : validateInputsLoop b mname bs rest with ⟨st3, rest3⟩
          simp only [Prod.mk.injEq] at h
          simp only [hres] at h
          obtain ⟨h1, h3⟩ := h
          subst h1
          subst h3
          obtain ⟨hmap, hresv⟩ := ih _ _ hres hok
          constructor
          · by_cases hb : bs = 0
            · rcases hrs : cfg.reshape with _ | rs <;>
                simp [List.map_cons, validatePhaseEntry, hg, hb, hrs, hmap]
            · rcases hrs : cfg.reshape with _ | rs <;>
                simp [List.map_cons, validatePhaseEntry, hg, hb, hrs, hmap]
          · intro q hq
            rcases List.mem_cons.mp hq with rfl | hq2
            · exact ⟨cfg, hg⟩
            · exact hresv q hq2

/-- Helper: chaining the batching-loop entry effect and the validation-loop
entry effect gives the whole-Normalize entry effect (batching models). -/
theorem validate_batch_entry_comp (b : InferenceBackend) (bs : Nat)
    (p : String × InferenceRequest.Input) (maxbs : Int) (hmb : ¬ maxbs = 0) :
    validatePhaseEntry b bs (batchPhaseEntry b p) =
      normalizeInputEntry b maxbs bs p := by
  rcases hg : b.GetInput p.1 with st | cfg
  · simp [batchPhaseEntry, validatePhaseEntry, normalizeInputEntry, hg]
  · by_cases hshape : cfg.is_shape_tensor <;>
      rcases hrs : cfg.reshape with _ | rs <;>
        by_cases hb : bs = 0 <;>
          simp [batchPhaseEntry, validatePhaseEntry, normalizeInputEntry, hg, hshape,
            hrs, hb, hmb, applyReshape]

/-- Helper: chaining the no-batching entry effect and the validation-loop
entry effect gives the whole-Normalize entry effect (non-batching models;
the input must resolve in the config, which a successful validation loop
guarantees). -/
theorem validate_noBatch_entry_comp (b : InferenceBackend) (bs : Nat)
    (p : String × InferenceRequest.Input)
    (hres : ∃ cfg, b.GetInput p.1 = Except.ok cfg) :
    validatePhaseEntry b bs (p.1, { p.2 with shape := p.2.original_shape }) =
      normalizeInputEntry b 0 bs p := by
  obtain ⟨cfg, hg⟩ := hres
  rcases hrs : cfg.reshape with _ | rs <;>
    by_cases hb : bs = 0 <;>
      simp [validatePhaseEntry, normalizeInputEntry, hg, hrs, hb, applyReshape]

/-- Helper: a successful Normalize maps every original input through
normalizeInputEntry (with the final batch size), computes the batch size as
the running fold of the non-shape leading dimensions (batching models) or 0
(non-batching models), has enforced the agreement check and the non-empty
shape requirement, and has resolved every input in the config. -/
theorem Normalize_ok_inputs_map (r : InferenceRequest)
    (hok : (r.Normalize).1.IsOk = true) :
    (r.Normalize).2.original_inputs =
      r.original_inputs.map
        (normalizeInputEntry r.backend r.backend.config.max_batch_size
          (r.Normalize).2.batch_size)
    ∧ (r.backend.config.max_batch_size = 0 → (r.Normalize).2.batch_size = 0)
    ∧ (¬ r.backend.config.max_batch_size = 0 →
        (r.Normalize).2.batch_size =
          runningBatch 0 (nonShapeLeadingDims r.backend r.original_inputs)
        ∧ batchDimsConsistent 0 (nonShapeLeadingDims r.backend r.original_inputs)
            = true
        ∧ (∀ p ∈ r.original_inputs, ∀ cfg, r.backend.GetInput p.1 = Except.ok cfg →
            cfg.is_shape_tensor = false → p.2.original_shape ≠ []))
    ∧ (∀ p ∈ r.original_inputs, ∃ cfg, r.backend.GetInput p.1 = Except.ok cfg) := by
  rcases h0 : r.normalizeRequestedOutputs with ⟨st0, r0⟩
  have p0 := normalizeRequestedOutputs_preserves r
  rw [h0] at p0
  have hob0 : r0.backend = r.backend := p0.2.2.2.2.2.2.1
  have hoo0 : r0.original_inputs = r.original_inputs := p0.1
  simp only [InferenceRequest.Normalize, h0] at hok ⊢
  by_cases hst0 : st0.IsOk
  · rw [if_pos hst0] at hok ⊢
    by_cases hlen : r0.original_inputs.length ≠ r0.backend.config.input.length
    · rw [if_pos hlen] at hok
      simp [Status.IsOk] at hok
    · rw [if_neg hlen] at hok ⊢
      rcases h1 : r0.normalizeBatchPhase with ⟨st1, r1⟩
      simp only [h1] at hok ⊢
      have p1 := normalizeBatchPhase_preserves r0
      rw [h1] at p1
      have hob1 : r1.backend = r0.backend := p1.2.2.2.2.2.1
      by_cases hst1 : st1.IsOk
      · rw [if_pos hst1] at hok ⊢
        by_cases hmax :
            int32OfUInt32 r1.batch_size > r1.backend.config.max_batch_size
        · rw [if_pos hmax] at hok
          simp [Status.IsOk] at hok
        · rw [if_neg hmax] at hok ⊢
          rcases h2 : validateInputsLoop r1.backend r1.ModelName r1.batch_size
              r1.original_inputs with ⟨st2, oi2⟩
          have hvres : r1.normalizeValidatePhase =
              (st2, { r1 with original_inputs := oi2 }) := by
            simp [InferenceRequest.normalizeValidatePhase, h2]
          rw [hvres] at hok ⊢
          obtain ⟨hvmap, hvresolve⟩ := validateInputsLoop_ok_map r1.backend
            r1.ModelName r1.batch_size r1.original_inputs st2 oi2 h2 hok
          by_cases hmb : r0.backend.config.max_batch_size = 0
          · have h1b := h1
            simp only [InferenceRequest.normalizeBatchPhase, hmb, if_true,
              if_pos, Prod.mk.injEq] at h1b
            obtain ⟨hst1e, hr1e⟩ := h1b
            have hr1bs : r1.batch_size = 0 := by rw [← hr1e]
            have hr1oi : r1.original_inputs =
                r0.original_inputs.map
                  (fun p => (p.1, { p.2 with shape := p.2.original_shape })) := by
              rw [← hr1e]
            have hmb' : r.backend.config.max_batch_size = 0 := by rw [← hob0]; exact hmb
            have hresolve : ∀ p ∈ r.original_inputs,
                ∃ cfg, r.backend.GetInput p.1 = Except.ok cfg := by
              intro p hp
              have hmem : (p.1, { p.2 with shape := p.2.original_shape })
                  ∈ r1.original_inputs := by
                rw [hr1oi, hoo0]
                exact List.mem_map_of_mem _ hp
              have := hvresolve _ hmem
              rw [hob1, hob0] at this
              exact this
            refine ⟨?_, fun _ => by simp [hr1bs], fun hc => absurd hmb' hc, hresolve⟩
            · show oi2 = _
              rw [hvmap, hr1oi, hoo0, List.map_map, hob1, hob0, hr1bs, hmb']
              refine List.map_congr_left ?_
              intro p hp
              exact validate_noBatch_entry_comp r.backend 0 p (hresolve p hp)
          · have h1b := h1
            rcases hloop : normalizeBatchLoop r0.backend r0.ModelName 0
                r0.original_inputs with ⟨stb, bsb, oib⟩
            simp only [InferenceRequest.normalizeBatchPhase, hmb, if_false, hloop,
              Prod.mk.injEq] at h1b
            obtain ⟨hstb, hr1e⟩ := h1b
            have hstbok : stb.IsOk = true := by rw [hstb]; exact hst1
            obtain ⟨m1, m2, m3, m4, m5⟩ := normalizeBatchLoop_ok_map r0.backend
              r0.ModelName r0.original_inputs 0 stb bsb oib hloop hstbok
            have hr1bs : r1.batch_size = bsb := by rw [← hr1e]
            have hr1oi : r1.original_inputs = oib := by rw [← hr1e]
            have hmb' : ¬ r.backend.config.max_batch_size = 0 := by
              rw [← hob0]; exact hmb
            have hresolve : ∀ p ∈ r.original_inputs,
                ∃ cfg, r.backend.GetInput p.1 = Except.ok cfg := by
              intro p hp
              have := m5 p (by rw [hoo0]; exact hp)
              rw [hob0] at this
              exact this
            refine ⟨?_, fun hc => absurd hc hmb', fun _ => ⟨?_, ?_, ?_⟩, hresolve⟩
            · show oi2 = _
              rw [hvmap, hr1oi, m1, hoo0, List.map_map, hob1, hob0, hr1bs]
              refine List.map_congr_left ?_
              intro p hp
              exact validate_batch_entry_comp r.backend bsb p
                r.backend.config.max_batch_size hmb'
            · show r1.batch_size = _
              rw [hr1bs, m2, hoo0, hob0]
            · rw [← hob0, ← hoo0]
              exact m3
            · intro p hp cfg hcfg hns
              rw [← hoo0] at hp
              rw [← hob0] at hcfg
              exact m4 p hp cfg hcfg hns
      · rw [if_neg hst1] at hok
        exact absurd hok hst1
  · rw [if_neg hst0] at hok
    exact absurd hok hst0

/-- Helper: the reshape substitution emits exactly one dimension per target
slot. -/
theorem substituteReshape_length (target : List Int) :
    ∀ vals : List Int, (substituteReshape target vals).length = target.length := by
  induction target with
  | nil => intro vals; rfl
  | cons t ts ih =>
    intro vals
    by_cases ht : t = -1 <;> simp [substituteReshape, ht, ih]

/-- Helper: getD after a cons, one position later. -/
theorem getD_cons_tail (vals : List Int) (k : Nat) :
    vals.getD (k + 1) 0 = vals.tail.getD k 0 := by
  cases vals <;> simp [List.getD]

/-- Helper: wildcard slots strictly before position k+1 of a cons. -/
theorem wildcardCountBefore_cons (t : Int) (ts : List Int) (k : Nat) :
    wildcardCountBefore (t :: ts) (k + 1) =
      (if t = -1 then 1 else 0) + wildcardCountBefore ts k := by
  by_cases ht : t = -1 <;>
    simp [wildcardCountBefore, List.filter_cons, ht, Nat.add_comm]

/-- Helper: index-wise reading of the reshape substitution — position j of
the result is the target dimension when it is not -1, and otherwise the
recorded value whose rank is the number of wildcard slots before j. -/
theorem substituteReshape_getElem (target : List Int) :
    ∀ (vals : List Int) (j : Nat) (d : Int), target[j]? = some d →
      (substituteReshape target vals)[j]? =
        some (if d = -1 then vals.getD (wildcardCountBefore target j) 0 else d) := by
  induction target with
  | nil => intro vals j d h; simp at h
  | cons t ts ih =>
    intro vals j d h
    cases j with
    | zero =>
      have hd : t = d := by simpa using h
      subst hd
      by_cases ht : t = -1
      · simp only [substituteReshape, if_pos ht]
        simp [ht, wildcardCountBefore]
        cases vals <;> simp [List.getD]
      · simp only [substituteReshape, if_neg ht]
        simp [ht, wildcardCountBefore]
    | succ k =>
      have h' : ts[k]? = some d := by simpa using h
      by_cases ht : t = -1
      · have hih := ih vals.tail k d h'
        rw [wildcardCountBefore_cons, if_pos ht]
        simp only [substituteReshape, if_pos ht, List.getElem?_cons_succ]
        rw [hih]
        by_cases hd : d = -1
        · simp only [hd, if_pos rfl]
          rw [Nat.add_comm, getD_cons_tail]
        · simp [hd]
      · have hih := ih vals k d h'
        rw [wildcardCountBefore_cons, if_neg ht]
        simp only [substituteReshape, if_neg ht, List.getElem?_cons_succ]
        rw [hih]
        simp

/-- Helper: lookup in a key-preserving map over a unique-key association
list. -/
theorem lookup_map_fst
    (f : String × InferenceRequest.Input → String × InferenceRequest.Input)
    (hf : ∀ q, (f q).1 = q.1) :
    ∀ (l : List (String × InferenceRequest.Input)), (l.map Prod.fst).Nodup →
      ∀ p ∈ l, (l.map f).lookup p.1 = some (f p).2 := by
  intro l
  induction l with
  | nil => intro _ p hp; simp at hp
  | cons q rest ih =>
    intro hnd p hp
    rw [List.map_cons, List.nodup_cons] at hnd
    rcases List.mem_cons.mp hp with heq | hp2
    · subst heq
      simp [List.lookup, hf]
    · have hne : p.1 ≠ q.1 := by
        intro hc
        exact hnd.1 (hc ▸ List.mem_map_of_mem Prod.fst hp2)
      rw [List.map_cons]
      have hbeq : (p.1 == (f q).1) = false := by
        rw [hf q]
        exact beq_eq_false_iff_ne.mpr hne
      simp only [List.lookup, hbeq]
      exact ih hnd.2 p hp2

/-- C6: for every input whose model config declares a reshape, a successful
Normalize replaces the batch-phase working shape by the reshape target with
each -1 slot substituted, in order, by the recorded values of the working
shape at the positions where the declared dims are -1; index-wise, slot j of
the result is target[j] when that is not -1 and otherwise the recorded value
numbered by the wildcard slots before j. -/
theorem normalize_reshape_substitution (r : InferenceRequest)
    (hok : (r.Normalize).1.IsOk = true)
    (hnd : (r.original_inputs.map Prod.fst).Nodup) :
    (∀ p ∈ r.original_inputs, ∀ cfg, r.backend.GetInput p.1 = Except.ok cfg →
       ∀ rs, cfg.reshape = some rs →
       ((r.Normalize).2.original_inputs.lookup p.1).map InferenceRequest.Input.shape
         = some (substituteReshape rs.shape
             (reshapeVariableValues cfg.dims
               (preReshapeShape r.backend.config.max_batch_size cfg p.2))))
    ∧ (∀ target vals : List Int,
        (substituteReshape target vals).length = target.length)
    ∧ (∀ (target vals : List Int) (j : Nat) (d : Int), target[j]? = some d →
        (substituteReshape target vals)[j]? =
          some (if d = -1 then vals.getD (wildcardCountBefore target j) 0 else d)) := by
  refine ⟨?_, fun t v => substituteReshape_length t v,
    fun t v j d hj => substituteReshape_getElem t v j d hj⟩
  intro p hp cfg hcfg rs hrs
  have hmap := (Normalize_ok_inputs_map r hok).1
  have hfst : ∀ q, (normalizeInputEntry r.backend r.backend.config.max_batch_size
      (r.Normalize).2.batch_size q).1 = q.1 := by
    intro q
    rcases hg : r.backend.GetInput q.1 with st | cfg2 <;>
      simp [normalizeInputEntry, hg]
  rw [hmap, lookup_map_fst _ hfst r.original_inputs hnd p hp]
  by_cases hmb : r.backend.config.max_batch_size = 0 <;>
    by_cases hsh : cfg.is_shape_tensor <;>
      by_cases hbs : (r.Normalize).2.batch_size = 0 <;>
        simp [normalizeInputEntry, hcfg, hrs, preReshapeShape, applyReshape,
          hmb, hsh, hbs]

/-- C6 witness: scenario S3 — declared dims [-1, 4], reshape target [4, -1],
original shape [7, 4], no batching: the working shape becomes [4, 7]. -/
theorem normalize_reshape_substitution_witness :
    ((reshapeRequest.Normalize).2.original_inputs.lookup "IN0").map
        InferenceRequest.Input.shape
      = some (substituteReshape [4, -1] (reshapeVariableValues [-1, 4]
          (preReshapeShape 0
            { name := "IN0", data_type := DataType.TYPE_FP32, dims := [-1, 4],
              reshape := some ⟨[4, -1]⟩ }
            { name := "IN0", datatype := DataType.TYPE_FP32,
              original_shape := [7, 4] })))
    ∧ substituteReshape [4, -1] (reshapeVariableValues [-1, 4] [7, 4]) = [4, 7] :=
  ⟨(normalize_reshape_substitution reshapeRequest (by decide) (by decide)).1
      ("IN0", { name := "IN0", datatype := DataType.TYPE_FP32,
                original_shape := [7, 4] })
      (by decide)
      { name := "IN0", data_type := DataType.TYPE_FP32, dims := [-1, 4],
        reshape := some ⟨[4, -1]⟩ }
      rfl ⟨[4, -1]⟩ rfl,
   by decide⟩

/-- Helper: when every input resolves, every non-shape input has a non-empty
original shape, and the leading dimensions fail the running agreement check,
the batching loop returns INVALID_ARG with the batch-mismatch message for
some input name. -/
theorem normalizeBatchLoop_mismatch (b : InferenceBackend) (mname : String) :
    ∀ (l : List (String × InferenceRequest.Input)) (bs0 : Nat),
      (∀ p ∈ l, ∃ cfg, b.GetInput p.1 = Except.ok cfg) →
      (∀ p ∈ l, ∀ cfg, b.GetInput p.1 = Except.ok cfg →
        cfg.is_shape_tensor = false → p.2.original_shape ≠ []) →
      batchDimsConsistent bs0 (nonShapeLeadingDims b l) = false →
      ∃ iname, (normalizeBatchLoop b mname bs0 l).1 =
        ⟨StatusCode.InvalidArg, batchMismatchMsg iname mname⟩ := by
  intro l
  induction l with
  | nil =>
    intro bs0 _ _ hcon
    simp [nonShapeLeadingDims, batchDimsConsistent] at hcon
  | cons p rest ih =>
    intro bs0 hres hne hcon
    obtain ⟨n, i⟩ := p
    obtain ⟨cfg, hg⟩ := hres (n, i) (List.mem_cons_self _ _)
    by_cases hsh : cfg.is_shape_tensor
    · have hcon' : batchDimsConsistent bs0 (nonShapeLeadingDims b rest) = false := by
        simpa [nonShapeLeadingDims, hg, hsh] using hcon
      obtain ⟨iname, hst⟩ := ih bs0
        (fun q hq => hres q (List.mem_cons_of_mem _ hq))
        (fun q hq => hne q (List.mem_cons_of_mem _ hq)) hcon'
      refine ⟨iname, ?_⟩
      simp [normalizeBatchLoop, hg, hsh, hst]
    · have hshF : cfg.is_shape_tensor = false := by simpa using hsh
      have hine : i.original_shape ≠ [] :=
        hne (n, i) (List.mem_cons_self _ _) cfg hg hshF
      have hlen : ¬ i.original_shape.length = 0 := by
        simpa using hine
      have hld : nonShapeLeadingDims b ((n, i) :: rest) =
          i.original_shape.headD 0 :: nonShapeLeadingDims b rest := by
        simp [nonShapeLeadingDims, hg, hshF]
      rw [hld] at hcon
      by_cases hbs0 : bs0 = 0
      · have hcon' : batchDimsConsistent
            (uint32OfInt64 (i.original_shape.headD 0))
            (nonShapeLeadingDims b rest) = false := by
          simpa [batchDimsConsistent, hbs0] using hcon
        obtain ⟨iname, hst⟩ := ih (uint32OfInt64 (i.original_shape.headD 0))
          (fun q hq => hres q (List.mem_cons_of_mem _ hq))
          (fun q hq => hne q (List.mem_cons_of_mem _ hq)) hcon'
        refine ⟨iname, ?_⟩
        simp [normalizeBatchLoop, hg, hsh, hlen, hbs0]
        simpa using hst
      · by_cases hd : i.original_shape.headD 0 = (bs0 : Int)
        · have hd' : i.original_shape.head?.getD 0 = (bs0 : Int) := by
            simpa using hd
          have hcon' : batchDimsConsistent bs0 (nonShapeLeadingDims b rest)
              = false := by
            have hcon2 := hcon
            simp [batchDimsConsistent, hbs0] at hcon2
            exact hcon2 hd'
          obtain ⟨iname, hst⟩ := ih bs0
            (fun q hq => hres q (List.mem_cons_of_mem _ hq))
            (fun q hq => hne q (List.mem_cons_of_mem _ hq)) hcon'
          refine ⟨iname, ?_⟩
          simp [normalizeBatchLoop, hg, hsh, hlen, hbs0, hd']
          simpa using hst
        · have hd' : ¬ i.original_shape.head?.getD 0 = (bs0 : Int) := by
            simpa using hd
          refine ⟨i.name, ?_⟩
          simp [normalizeBatchLoop, hg, hsh, hlen, hbs0, hd']

/-- C3 counterexample: a request whose two non-shape inputs disagree on the
leading dimension (0 against 5) normalizes successfully with batch size 5 —
the loop only stores the leading dimension while the running batch size is
still 0, so a leading 0 disables the agreement check for that input — where
the claim requires an INVALID_ARG batch-size mismatch. -/
theorem normalize_batch_counterexample :
    batchMismatchBackend.config.max_batch_size ≠ 0
    ∧ nonShapeLeadingDims batchMismatchBackend
        zeroLeadingDimRequest.original_inputs = [0, 5]
    ∧ (zeroLeadingDimRequest.Normalize).1.IsOk = true
    ∧ (zeroLeadingDimRequest.Normalize).2.batch_size = 5 := by decide

/-- C3 (amended): for a batching model a successful Normalize folds the
leading dimensions of the resolvable non-shape-tensor inputs into the uint32
batch size — a dimension is stored whenever the running value is still 0 and
must equal it otherwise — requires every non-shape input's original shape to
be non-empty, and rewrites every input through the per-entry map in which a
non-shape input's working shape is its original shape without the first
dimension and a shape tensor keeps its original shape and is tagged
is_shape_tensor; when the inputs all resolve with non-empty shapes but the
leading dimensions fail the running agreement check, Normalize fails with
INVALID_ARG carrying the batch-mismatch message. -/
theorem normalize_batch_fold (r : InferenceRequest)
    (hmb : r.backend.config.max_batch_size ≠ 0) :
    ((r.Normalize).1.IsOk = true →
      (r.Normalize).2.batch_size =
          runningBatch 0 (nonShapeLeadingDims r.backend r.original_inputs)
      ∧ batchDimsConsistent 0 (nonShapeLeadingDims r.backend r.original_inputs)
          = true
      ∧ (∀ p ∈ r.original_inputs, ∀ cfg, r.backend.GetInput p.1 = Except.ok cfg →
          cfg.is_shape_tensor = false → p.2.original_shape ≠ [])
      ∧ (r.Normalize).2.original_inputs =
          r.original_inputs.map
            (normalizeInputEntry r.backend r.backend.config.max_batch_size
              (r.Normalize).2.batch_size))
    ∧ (∀ (p : String × InferenceRequest.Input) (cfg : ModelInput) (bs : Nat),
        r.backend.GetInput p.1 = Except.ok cfg → cfg.reshape = none →
        (cfg.is_shape_tensor = true →
          (normalizeInputEntry r.backend r.backend.config.max_batch_size bs p).2.shape
              = p.2.original_shape
          ∧ (normalizeInputEntry r.backend r.backend.config.max_batch_size bs
              p).2.is_shape_tensor = true)
        ∧ (cfg.is_shape_tensor = false →
          (normalizeInputEntry r.backend r.backend.config.max_batch_size bs p).2.shape
              = p.2.original_shape.tail))
    ∧ ((r.normalizeRequestedOutputs).1.IsOk = true →
        r.original_inputs.length = r.backend.config.input.length →
        (∀ p ∈ r.original_inputs, ∃ cfg, r.backend.GetInput p.1 = Except.ok cfg) →
        (∀ p ∈ r.original_inputs, ∀ cfg, r.backend.GetInput p.1 = Except.ok cfg →
          cfg.is_shape_tensor = false → p.2.original_shape ≠ []) →
        batchDimsConsistent 0 (nonShapeLeadingDims r.backend r.original_inputs)
            = false →
        ∃ iname, (r.Normalize).1 =
          ⟨StatusCode.InvalidArg, batchMismatchMsg iname r.ModelName⟩) := by
  refine ⟨?_, ?_, ?_⟩
  · intro hok
    obtain ⟨hmap, _, himp, _⟩ := Normalize_ok_inputs_map r hok
    exact ⟨(himp hmb).1, (himp hmb).2.1, (himp hmb).2.2, hmap⟩
  · intro p cfg bs hg hrs
    constructor <;> intro hsh <;> by_cases hbs : bs = 0 <;>
      simp [normalizeInputEntry, hg, hrs, hsh, hmb, hbs]
  · intro hst0ok hlen hres hne hcon
    rcases h0 : r.normalizeRequestedOutputs with ⟨st0, r0⟩
    have p0 := normalizeRequestedOutputs_preserves r
    rw [h0] at p0
    have hob0 : r0.backend = r.backend := p0.2.2.2.2.2.2.1
    have hoo0 : r0.original_inputs = r.original_inputs := p0.1
    rw [h0] at hst0ok
    simp only [InferenceRequest.Normalize, h0]
    rw [if_pos hst0ok]
    have hlen0 : ¬ r0.original_inputs.length ≠ r0.backend.config.input.length := by
      rw [hoo0, hob0, hlen]
      simp
    rw [if_neg hlen0]
    rcases hloop : normalizeBatchLoop r0.backend r0.ModelName 0 r0.original_inputs
        with ⟨stb, bsb, oib⟩
    have hmname : r0.ModelName = r.ModelName := by
      simp [InferenceRequest.ModelName, InferenceBackend.Name, hob0]
    obtain ⟨iname, hst⟩ := normalizeBatchLoop_mismatch r0.backend r0.ModelName
      r0.original_inputs 0
      (by rw [hob0, hoo0]; exact hres)
      (by rw [hob0, hoo0]; exact hne)
      (by rw [hob0, hoo0]; exact hcon)
    rw [hloop] at hst
    have hst2 : stb =
        ⟨StatusCode.InvalidArg, batchMismatchMsg iname r0.ModelName⟩ := hst
    have hmb0 : ¬ r0.backend.config.max_batch_size = 0 := by
      rw [hob0]; exact hmb
    have h1 : r0.normalizeBatchPhase =
        (stb, { r0 with batch_size := bsb, original_inputs := oib }) := by
      simp [InferenceRequest.normalizeBatchPhase, hmb0, hloop]
    rw [h1]
    have hstb : stb.IsOk = false := by
      rw [hst2]
      simp [Status.IsOk]
    rw [hstb]
    simp only [Bool.false_eq_true, if_false]
    exact ⟨iname, by rw [hst2, hmname]⟩

/-- C3 witness: scenario S1 — the batching model with IN0 of original shape
[2, 3] normalizes with batch size equal to the fold of the leading
dimensions. -/
theorem normalize_batch_fold_witness :
    witnessRequest.backend.config.max_batch_size ≠ 0
    ∧ (witnessRequest.Normalize).1.IsOk = true
    ∧ (witnessRequest.Normalize).2.batch_size =
        runningBatch 0
          (nonShapeLeadingDims witnessRequest.backend
            witnessRequest.original_inputs) :=
  ⟨by decide, by decide,
   ((normalize_batch_fold witnessRequest (by decide)).1 (by decide)).1⟩

/-- Helper: lookup distributes over append as an Option.or. -/
theorem lookup_append_or (xs ys : List (String × InferenceRequest.Input))
    (k : String) :
    (xs ++ ys).lookup k = ((xs.lookup k).or (ys.lookup k)) := by
  induction xs with
  | nil => simp [List.lookup]
  | cons a rest ih =>
    obtain ⟨n, v⟩ := a
    cases h : k == n <;> simp [List.lookup, h, ih]

/-- Helper: a key outside the key list of an association list looks up to
none. -/
theorem lookup_none_of_not_mem_keys (l : List (String × InferenceRequest.Input))
    (k : String) (h : k ∉ l.map Prod.fst) : l.lookup k = none := by
  induction l with
  | nil => rfl
  | cons a rest ih =>
    obtain ⟨n, v⟩ := a
    simp only [List.map_cons, List.mem_cons] at h
    push_neg at h
    have hk : (k == n) = false := beq_eq_false_iff_ne.mpr h.1
    simp [List.lookup, hk]
    intro a b hab hka
    exact h.2 (by rw [hka]; exact List.mem_map_of_mem Prod.fst hab)

/-- Helper: a successful AddOriginalInput appends the entry under the input's
name and marks the request for normalization. -/
theorem AddOriginalInput_fresh (r : InferenceRequest) (i : InferenceRequest.Input)
    (h : r.original_inputs.lookup i.name = none) :
    r.AddOriginalInput i =
      (Status.Success,
       { r with original_inputs := r.original_inputs ++ [(i.name, i)],
                needs_normalization := true }) := by
  simp [InferenceRequest.AddOriginalInput, h]

/-- Helper: the clone input of the third pass keeps the source key as its
name in both the owning and the referencing branch. -/
theorem nullCloneEntry_name (data : AllocatedMemory) (mxn : Option String)
    (p : String × InferenceRequest.Input) :
    ((nullCloneEntry data mxn p).2).name = p.1 := by
  by_cases hmx : mxn = some p.1
  · simp [nullCloneEntry, hmx]
  · simp [nullCloneEntry, hmx, InferenceRequest.Input.AppendData,
      apply_ite InferenceRequest.Input.name]

/-- Helper: unfolding the first pass on a shape-tensor head. -/
theorem copyAsNullShapePass_cons_shape (aid : Nat) (lreq : InferenceRequest)
    (n : String) (i : InferenceRequest.Input)
    (rest : List (String × InferenceRequest.Input))
    (hsh : i.is_shape_tensor = true) :
    copyAsNullShapePass aid lreq ((n, i) :: rest) =
      copyAsNullShapePass (aid + 1)
        (lreq.AddOriginalInput (shapeCloneEntry aid (n, i))).2 rest := by
  simp [copyAsNullShapePass, hsh, shapeCloneEntry]

/-- Helper: unfolding the third pass on a non-shape-tensor head. -/
theorem copyAsNullThirdPass_cons_nonshape (data : AllocatedMemory)
    (mxn : Option String) (lreq : InferenceRequest)
    (n : String) (i : InferenceRequest.Input)
    (rest : List (String × InferenceRequest.Input))
    (hsh : i.is_shape_tensor = false) :
    copyAsNullThirdPass data mxn lreq ((n, i) :: rest) =
      copyAsNullThirdPass data mxn
        (lreq.AddOriginalInput (nullCloneEntry data mxn (n, i)).2).2 rest := by
  simp [copyAsNullThirdPass, hsh, nullCloneEntry]

/-- Helper: the keys of the first-pass clone entries are the keys of the
shape-tensor source inputs, in order, for any starting allocation id. -/
theorem shapeCloneEntries_keys :
    ∀ (l : List (String × InferenceRequest.Input)) (aid : Nat),
      (shapeCloneEntries aid l).map Prod.fst =
        (l.filter (fun p => p.2.is_shape_tensor)).map Prod.fst := by
  intro l
  induction l with
  | nil => intro aid; rfl
  | cons p rest ih =>
    intro aid
    by_cases hsh : p.2.is_shape_tensor <;>
      simp [shapeCloneEntries, List.filter_cons, hsh, ih]

/-- Helper: the first CopyAsNull pass advances the allocation counter once
per shape tensor, appends exactly the shape-tensor clone entries in source
order, marks needs_normalization whenever it added one, and touches no other
field. -/
theorem copyAsNullShapePass_spec :
    ∀ (l : List (String × InferenceRequest.Input)) (aid : Nat)
      (lreq : InferenceRequest),
      (∀ p ∈ l, p.2.is_shape_tensor = true →
        lreq.original_inputs.lookup p.1 = none) →
      (l.map Prod.fst).Nodup →
      (copyAsNullShapePass aid lreq l).1 = aid + countShapeTensors l
      ∧ (copyAsNullShapePass aid lreq l).2.original_inputs
          = lreq.original_inputs ++ shapeCloneEntries aid l
      ∧ (copyAsNullShapePass aid lreq l).2.needs_normalization
          = (lreq.needs_normalization || l.any (fun p => p.2.is_shape_tensor))
      ∧ (copyAsNullShapePass aid lreq l).2.backend = lreq.backend
      ∧ (copyAsNullShapePass aid lreq l).2.batch_size = lreq.batch_size
      ∧ (copyAsNullShapePass aid lreq l).2.collect_stats = lreq.collect_stats
      ∧ (copyAsNullShapePass aid lreq l).2.requested_outputs
          = lreq.requested_outputs
      ∧ (copyAsNullShapePass aid lreq l).2.original_requested_outputs
          = lreq.original_requested_outputs
      ∧ (copyAsNullShapePass aid lreq l).2.rid = lreq.rid
      ∧ (copyAsNullShapePass aid lreq l).2.requested_model_version
          = lreq.requested_model_version := by
  intro l
  induction l with
  | nil =>
    intro aid lreq _ _
    simp [copyAsNullShapePass, shapeCloneEntries, countShapeTensors]
  | cons q rest ih =>
    intro aid lreq hfresh hnd
    obtain ⟨n, i⟩ := q
    simp only [List.map_cons, List.nodup_cons] at hnd
    by_cases hsh : i.is_shape_tensor
    · rw [copyAsNullShapePass_cons_shape aid lreq n i rest hsh]
      have hl : lreq.original_inputs.lookup (shapeCloneEntry aid (n, i)).name
          = none := hfresh (n, i) (List.mem_cons_self _ _) hsh
      rw [AddOriginalInput_fresh lreq _ hl]
      have hres := ih (aid + 1)
        { lreq with
            original_inputs :=
              lreq.original_inputs ++ [((shapeCloneEntry aid (n, i)).name,
                shapeCloneEntry aid (n, i))],
            needs_normalization := true }
        (by
          intro p hp hpsh
          show (lreq.original_inputs ++ _).lookup p.1 = none
          rw [lookup_append_or, hfresh p (List.mem_cons_of_mem _ hp) hpsh]
          have hne : (p.1 == (shapeCloneEntry aid (n, i)).name) = false := by
            have : (shapeCloneEntry aid (n, i)).name = n := rfl
            rw [this]
            exact beq_eq_false_iff_ne.mpr
              (fun h => hnd.1 (h ▸ List.mem_map_of_mem Prod.fst hp))
          simp [List.lookup, hne])
        hnd.2
      obtain ⟨e1, e2, e3, e4, e5, e6, e7, e8, e9, e10⟩ := hres
      refine ⟨?_, ?_, ?_, by simpa using e4, by simpa using e5, by simpa using e6,
        by simpa using e7, by simpa using e8, by simpa using e9,
        by simpa using e10⟩
      · rw [e1]
        simp [countShapeTensors, hsh]
        omega
      · rw [e2]
        simp only [shapeCloneEntries, hsh, if_pos]
        have : (shapeCloneEntry aid (n, i)).name = n := rfl
        simp [this, List.append_assoc]
      · rw [e3]
        simp [hsh]
    · have hshF : i.is_shape_tensor = false := by simpa using hsh
      have hstep : copyAsNullShapePass aid lreq ((n, i) :: rest)
          = copyAsNullShapePass aid lreq rest := by
        simp [copyAsNullShapePass, hshF]
      rw [hstep]
      have hres := ih aid lreq
        (fun p hp hpsh => hfresh p (List.mem_cons_of_mem _ hp) hpsh) hnd.2
      simpa [countShapeTensors, shapeCloneEntries, hshF] using hres

/-- Helper: once the second-pass accumulator names a candidate, the pass
always reports a name. -/
theorem copyAsNullMaxPass_some_acc :
    ∀ (l : List (String × InferenceRequest.Input)) (accv : Nat) (nm0 : String),
      ∃ nm, (copyAsNullMaxPass (accv, some nm0) l).2 = some nm := by
  intro l
  induction l with
  | nil => intro accv nm0; exact ⟨nm0, rfl⟩
  | cons q rest ih =>
    intro accv nm0
    obtain ⟨n, i⟩ := q
    by_cases hsh : i.is_shape_tensor
    · simpa [copyAsNullMaxPass, hsh] using ih accv nm0
    · have hshF : i.is_shape_tensor = false := by simpa using hsh
      by_cases hge : i.data.TotalByteSize ≥ accv
      · simpa [copyAsNullMaxPass, hshF, hge] using ih i.data.TotalByteSize n
      · simpa [copyAsNullMaxPass, hshF, hge] using ih accv nm0

/-- Helper: the second CopyAsNull pass computes an upper bound of the
non-shape byte sizes that dominates the accumulator, and any reported name is
attained by a non-shape source input of exactly the reported size (or is the
untouched accumulator). -/
theorem copyAsNullMaxPass_spec :
    ∀ (l : List (String × InferenceRequest.Input)) (acc : Nat × Option String),
      (∀ p ∈ l, p.2.is_shape_tensor = false →
        p.2.data.TotalByteSize ≤ (copyAsNullMaxPass acc l).1)
      ∧ acc.1 ≤ (copyAsNullMaxPass acc l).1
      ∧ (∀ nm, (copyAsNullMaxPass acc l).2 = some nm →
          (∃ i, (nm, i) ∈ l ∧ i.is_shape_tensor = false
            ∧ i.data.TotalByteSize = (copyAsNullMaxPass acc l).1)
          ∨ (acc.2 = some nm ∧ (copyAsNullMaxPass acc l).1 = acc.1)) := by
  intro l
  induction l with
  | nil =>
    intro acc
    exact ⟨by simp, le_refl _, fun nm h => Or.inr ⟨h, rfl⟩⟩
  | cons q rest ih =>
    intro acc
    obtain ⟨n, i⟩ := q
    obtain ⟨accv, accn⟩ := acc
    by_cases hsh : i.is_shape_tensor
    · have hred : copyAsNullMaxPass (accv, accn) ((n, i) :: rest)
          = copyAsNullMaxPass (accv, accn) rest := by
        simp [copyAsNullMaxPass, hsh]
      rw [hred]
      obtain ⟨ih1, ih2, ih3⟩ := ih (accv, accn)
      refine ⟨?_, ih2, ?_⟩
      · intro p hp hpns
        rcases List.mem_cons.mp hp with rfl | hp2
        · exact absurd hpns (by simp [hsh])
        · exact ih1 p hp2 hpns
      · intro nm h
        rcases ih3 nm h with ⟨j, hj, hjns, hjsz⟩ | hr
        · exact Or.inl ⟨j, List.mem_cons_of_mem _ hj, hjns, hjsz⟩
        · exact Or.inr hr
    · have hshF : i.is_shape_tensor = false := by simpa using hsh
      by_cases hge : i.data.TotalByteSize ≥ accv
      · have hred : copyAsNullMaxPass (accv, accn) ((n, i) :: rest)
            = copyAsNullMaxPass (i.data.TotalByteSize, some n) rest := by
          simp [copyAsNullMaxPass, hshF, hge]
        rw [hred]
        obtain ⟨ih1, ih2, ih3⟩ := ih (i.data.TotalByteSize, some n)
        refine ⟨?_, le_trans hge ih2, ?_⟩
        · intro p hp hpns
          rcases List.mem_cons.mp hp with rfl | hp2
          · exact ih2
          · exact ih1 p hp2 hpns
        · intro nm h
          rcases ih3 nm h with ⟨j, hj, hjns, hjsz⟩ | ⟨hels, helv⟩
          · exact Or.inl ⟨j, List.mem_cons_of_mem _ hj, hjns, hjsz⟩
          · left
            have hnm : n = nm := by
              have := hels
              simp at this
              exact this
            refine ⟨i, ?_, hshF, ?_⟩
            · rw [← hnm]
              exact List.mem_cons_self _ _
            · rw [helv]
      · have hlt : i.data.TotalByteSize < accv := not_le.mp hge
        have hred : copyAsNullMaxPass (accv, accn) ((n, i) :: rest)
            = copyAsNullMaxPass (accv, accn) rest := by
          simp [copyAsNullMaxPass, hshF, hge]
        rw [hred]
        obtain ⟨ih1, ih2, ih3⟩ := ih (accv, accn)
        refine ⟨?_, ih2, ?_⟩
        · intro p hp hpns
          rcases List.mem_cons.mp hp with rfl | hp2
          · exact le_trans (le_of_lt hlt) ih2
          · exact ih1 p hp2 hpns
        · intro nm h
          rcases ih3 nm h with ⟨j, hj, hjns, hjsz⟩ | hr
          · exact Or.inl ⟨j, List.mem_cons_of_mem _ hj, hjns, hjsz⟩
          · exact Or.inr hr

/-- Helper: starting from the zeroed accumulator, the second pass reports a
name as soon as the source has any non-shape input. -/
theorem copyAsNullMaxPass_some :
    ∀ (l : List (String × InferenceRequest.Input)) (acc : Nat × Option String),
      (acc.2 = none → acc.1 = 0) →
      (∃ p ∈ l, p.2.is_shape_tensor = false) →
      ∃ nm, (copyAsNullMaxPass acc l).2 = some nm := by
  intro l
  induction l with
  | nil =>
    intro acc _ hex
    simp at hex
  | cons q rest ih =>
    intro acc hacc hex
    obtain ⟨n, i⟩ := q
    obtain ⟨accv, accn⟩ := acc
    by_cases hsh : i.is_shape_tensor
    · have hred : copyAsNullMaxPass (accv, accn) ((n, i) :: rest)
          = copyAsNullMaxPass (accv, accn) rest := by
        simp [copyAsNullMaxPass, hsh]
      rw [hred]
      apply ih (accv, accn) hacc
      obtain ⟨p, hp, hpns⟩ := hex
      rcases List.mem_cons.mp hp with rfl | hp2
      · exact absurd hpns (by simp [hsh])
      · exact ⟨p, hp2, hpns⟩
    · have hshF : i.is_shape_tensor = false := by simpa using hsh
      by_cases hge : i.data.TotalByteSize ≥ accv
      · have hred : copyAsNullMaxPass (accv, accn) ((n, i) :: rest)
            = copyAsNullMaxPass (i.data.TotalByteSize, some n) rest := by
          simp [copyAsNullMaxPass, hshF, hge]
        rw [hred]
        exact copyAsNullMaxPass_some_acc rest i.data.TotalByteSize n
      · cases accn with
        | some nm0 =>
          have hred : copyAsNullMaxPass (accv, some nm0) ((n, i) :: rest)
              = copyAsNullMaxPass (accv, some nm0) rest := by
            simp [copyAsNullMaxPass, hshF, hge]
          rw [hred]
          exact copyAsNullMaxPass_some_acc rest accv nm0
        | none =>
          have h0 : accv = 0 := hacc rfl
          exact absurd (h0 ▸ Nat.zero_le _) hge

/-- Helper: the third CopyAsNull pass appends exactly the non-shape clone
entries in source order, marks needs_normalization whenever it added one, and
touches no other field. -/
theorem copyAsNullThirdPass_spec :
    ∀ (l : List (String × InferenceRequest.Input)) (data : AllocatedMemory)
      (mxn : Option String) (lreq : InferenceRequest),
      (∀ p ∈ l, p.2.is_shape_tensor = false →
        lreq.original_inputs.lookup p.1 = none) →
      (l.map Prod.fst).Nodup →
      (copyAsNullThirdPass data mxn lreq l).original_inputs
          = lreq.original_inputs
            ++ (l.filter (fun p => !p.2.is_shape_tensor)).map
                 (nullCloneEntry data mxn)
      ∧ (copyAsNullThirdPass data mxn lreq l).needs_normalization
          = (lreq.needs_normalization || l.any (fun p => !p.2.is_shape_tensor))
      ∧ (copyAsNullThirdPass data mxn lreq l).backend = lreq.backend
      ∧ (copyAsNullThirdPass data mxn lreq l).batch_size = lreq.batch_size
      ∧ (copyAsNullThirdPass data mxn lreq l).collect_stats = lreq.collect_stats
      ∧ (copyAsNullThirdPass data mxn lreq l).requested_outputs
          = lreq.requested_outputs
      ∧ (copyAsNullThirdPass data mxn lreq l).original_requested_outputs
          = lreq.original_requested_outputs
      ∧ (copyAsNullThirdPass data mxn lreq l).rid = lreq.rid
      ∧ (copyAsNullThirdPass data mxn lreq l).requested_model_version
          = lreq.requested_model_version := by
  intro l
  induction l with
  | nil =>
    intro data mxn lreq _ _
    simp [copyAsNullThirdPass]
  | cons q rest ih =>
    intro data mxn lreq hfresh hnd
    obtain ⟨n, i⟩ := q
    simp only [List.map_cons, List.nodup_cons] at hnd
    by_cases hsh : i.is_shape_tensor
    · have hstep : copyAsNullThirdPass data mxn lreq ((n, i) :: rest)
          = copyAsNullThirdPass data mxn lreq rest := by
        simp [copyAsNullThirdPass, hsh]
      rw [hstep]
      have hres := ih data mxn lreq
        (fun p hp hpns => hfresh p (List.mem_cons_of_mem _ hp) hpns) hnd.2
      simpa [List.filter_cons, hsh] using hres
    · have hshF : i.is_shape_tensor = false := by simpa using hsh
      rw [copyAsNullThirdPass_cons_nonshape data mxn lreq n i rest hshF]
      have hl : lreq.original_inputs.lookup
          ((nullCloneEntry data mxn (n, i)).2).name = none := by
        rw [nullCloneEntry_name]
        exact hfresh (n, i) (List.mem_cons_self _ _) hshF
      rw [AddOriginalInput_fresh lreq _ hl]
      have hpair : (((nullCloneEntry data mxn (n, i)).2).name,
          (nullCloneEntry data mxn (n, i)).2) = nullCloneEntry data mxn (n, i) := by
        rw [nullCloneEntry_name]
        exact rfl
      have hres := ih data mxn
        { lreq with
            original_inputs :=
              lreq.original_inputs ++ [(((nullCloneEntry data mxn (n, i)).2).name,
                (nullCloneEntry data mxn (n, i)).2)],
            needs_normalization := true }
        (by
          intro p hp hpns
          show (lreq.original_inputs ++ _).lookup p.1 = none
          rw [lookup_append_or, hfresh p (List.mem_cons_of_mem _ hp) hpns]
          have hne : (p.1 == ((nullCloneEntry data mxn (n, i)).2).name) = false := by
            rw [nullCloneEntry_name]
            show (p.1 == n) = false
            exact beq_eq_false_iff_ne.mpr
              (fun h => hnd.1 (h ▸ List.mem_map_of_mem Prod.fst hp))
          simp [List.lookup, hne])
        hnd.2
      obtain ⟨e1, e2, e3, e4, e5, e6, e7, e8, e9⟩ := hres
      refine ⟨?_, ?_, by simpa using e3, by simpa using e4, by simpa using e5,
        by simpa using e6, by simpa using e7, by simpa using e8,
        by simpa using e9⟩
      · rw [e1]
        simp only [List.filter_cons, hshF, Bool.not_false, if_pos, List.map_cons]
        rw [hpair]
        simp [List.append_assoc]
      · rw [e2]
        simp [hshF]

/-- C5 counterexample: on the scenario-S5 source — which has non-shape
inputs, so the claim's premise holds — the null-request clone ends with
needs_normalization = true, not false: CopyAsNull assigns false on entry, but
every AddOriginalInput it then performs sets the flag back to true. -/
theorem copy_as_null_counterexample :
    (∃ p ∈ nullCloneSource.original_inputs, p.2.is_shape_tensor = false)
    ∧ (InferenceRequest.CopyAsNull 1 nullCloneSource).needs_normalization
        = true := by decide

/-- C5 (amended): for every source request with unique input names and at
least one non-shape-tensor input, CopyAsNull copies each shape-tensor
input's bytes into a freshly allocated CPU buffer of that input's byte size,
builds one backing buffer sized to the largest original non-shape input,
hands that Allocated buffer to the non-shape input the second pass names —
one attaining the maximal byte size — makes every other non-shape input
reference a prefix of that buffer of its own original byte size, and leaves
the clone with zero requested outputs, a response allocator failing every
allocation, collect_stats false, and needs_normalization true (every input
insertion re-marks the clone for normalization). -/
theorem copy_as_null_structure (from_ : InferenceRequest) (next_alloc_id : Nat)
    (hnd : (from_.original_inputs.map Prod.fst).Nodup)
    (hex : ∃ p ∈ from_.original_inputs, p.2.is_shape_tensor = false) :
    ∃ (mx : Nat) (nm : String),
      (∀ p ∈ from_.original_inputs, p.2.is_shape_tensor = false →
        p.2.data.TotalByteSize ≤ mx)
      ∧ (∃ i, (nm, i) ∈ from_.original_inputs ∧ i.is_shape_tensor = false
          ∧ i.data.TotalByteSize = mx)
      ∧ (InferenceRequest.CopyAsNull next_alloc_id from_).original_inputs =
          shapeCloneEntries next_alloc_id from_.original_inputs
          ++ (from_.original_inputs.filter (fun p => !p.2.is_shape_tensor)).map
               (nullCloneEntry
                 ⟨next_alloc_id + countShapeTensors from_.original_inputs,
                  List.replicate mx 0, TRITONSERVER_MemoryType.CPU, 0⟩
                 (some nm))
      ∧ (∀ p : String × InferenceRequest.Input,
          (p.1 = nm →
            (nullCloneEntry
               ⟨next_alloc_id + countShapeTensors from_.original_inputs,
                List.replicate mx 0, TRITONSERVER_MemoryType.CPU, 0⟩
               (some nm) p).2.data =
              Memory.Allocated
                ⟨next_alloc_id + countShapeTensors from_.original_inputs,
                 List.replicate mx 0, TRITONSERVER_MemoryType.CPU, 0⟩)
          ∧ (p.1 ≠ nm → 0 < p.2.data.TotalByteSize →
              p.2.data.TotalByteSize ≤ mx →
            (nullCloneEntry
               ⟨next_alloc_id + countShapeTensors from_.original_inputs,
                List.replicate mx 0, TRITONSERVER_MemoryType.CPU, 0⟩
               (some nm) p).2.data =
              Memory.Reference
                [⟨next_alloc_id + countShapeTensors from_.original_inputs, 0,
                  List.replicate p.2.data.TotalByteSize 0,
                  TRITONSERVER_MemoryType.CPU, 0⟩]))
      ∧ (∀ (aid sz : Nat) (src : List Nat), src.length = sz →
          (memcpyAlloc aid sz src).content = src
          ∧ (memcpyAlloc aid sz src).memory_type = TRITONSERVER_MemoryType.CPU)
      ∧ (InferenceRequest.CopyAsNull next_alloc_id from_).requested_outputs = []
      ∧ (InferenceRequest.CopyAsNull next_alloc_id
          from_).original_requested_outputs = []
      ∧ (InferenceRequest.CopyAsNull next_alloc_id from_).response_allocator
          = ResponseAllocatorKind.NullAllocator
      ∧ (∀ n, (((InferenceRequest.CopyAsNull next_alloc_id
          from_).response_allocator).AllocStatus n).IsOk = false)
      ∧ (InferenceRequest.CopyAsNull next_alloc_id from_).collect_stats = false
      ∧ (InferenceRequest.CopyAsNull next_alloc_id from_).needs_normalization
          = true
      ∧ (InferenceRequest.CopyAsNull next_alloc_id from_).inputs
          = (InferenceRequest.CopyAsNull next_alloc_id from_).original_inputs
      ∧ (InferenceRequest.CopyAsNull next_alloc_id from_).batch_size
          = from_.batch_size
      ∧ (InferenceRequest.CopyAsNull next_alloc_id from_).backend
          = from_.backend := by
  obtain ⟨qe, hqe, hqens⟩ := hex
  rcases hs : copyAsNullShapePass next_alloc_id
      { rid := from_.rid + 1, backend := from_.backend,
        requested_model_version := from_.requested_model_version,
        needs_normalization := false, batch_size := from_.batch_size,
        collect_stats := false } from_.original_inputs with ⟨said, sreq⟩
  rcases hm : copyAsNullMaxPass (0, none) from_.original_inputs with ⟨mx0, mxn0⟩
  obtain ⟨nm, hnm⟩ := copyAsNullMaxPass_some from_.original_inputs (0, none)
    (fun _ => rfl) ⟨qe, hqe, hqens⟩
  rw [hm] at hnm
  have hmxn : mxn0 = some nm := hnm
  obtain ⟨hub, hacc0, hattain⟩ :=
    copyAsNullMaxPass_spec from_.original_inputs (0, none)
  rw [hm] at hub hattain
  rcases hattain nm hnm with ⟨iatt, hmem, hins, hisz⟩ | ⟨habs, _⟩
  · obtain ⟨s1, s2, s3, s4, s5, s6, s7, s8, s9, s10⟩ :=
      copyAsNullShapePass_spec from_.original_inputs next_alloc_id
        { rid := from_.rid + 1, backend := from_.backend,
          requested_model_version := from_.requested_model_version,
          needs_normalization := false, batch_size := from_.batch_size,
          collect_stats := false }
        (fun p _ _ => rfl) hnd
    rw [hs] at s1 s2 s3 s4 s5 s6 s7 s8 s9 s10
    dsimp only at s1 s2 s3 s4 s5 s6 s7 s8 s9 s10 hub hisz
    rw [List.nil_append] at s2
    have hfresh3 : ∀ p ∈ from_.original_inputs, p.2.is_shape_tensor = false →
        sreq.original_inputs.lookup p.1 = none := by
      intro p hp hpns
      rw [s2]
      apply lookup_none_of_not_mem_keys
      rw [shapeCloneEntries_keys]
      intro hmemk
      obtain ⟨q2, hq2f, hq21⟩ := List.mem_map.mp hmemk
      have hq2L : q2 ∈ from_.original_inputs := List.mem_of_mem_filter hq2f
      have hq2sh : q2.2.is_shape_tensor = true := by
        simpa using List.of_mem_filter hq2f
      have hpq : q2 = p := List.inj_on_of_nodup_map hnd hq2L hp hq21
      rw [hpq, hpns] at hq2sh
      cases hq2sh
    obtain ⟨t1, t2, t3, t4, t5, t6, t7, t8, t9⟩ :=
      copyAsNullThirdPass_spec from_.original_inputs
        ⟨said, List.replicate mx0 0, TRITONSERVER_MemoryType.CPU, 0⟩ mxn0 sreq
        hfresh3 hnd
    have hclone : InferenceRequest.CopyAsNull next_alloc_id from_ =
        { copyAsNullThirdPass
              ⟨said, List.replicate mx0 0, TRITONSERVER_MemoryType.CPU, 0⟩
              mxn0 sreq from_.original_inputs
            with
              response_allocator := ResponseAllocatorKind.NullAllocator,
              inputs :=
                (copyAsNullThirdPass
                  ⟨said, List.replicate mx0 0, TRITONSERVER_MemoryType.CPU, 0⟩
                  mxn0 sreq from_.original_inputs).original_inputs } := by
      simp only [InferenceRequest.CopyAsNull]
      rw [hs, hm]
    have hsaid : said = next_alloc_id + countShapeTensors from_.original_inputs :=
      s1
    subst hsaid
    subst hmxn
    have hany : from_.original_inputs.any (fun p => !p.2.is_shape_tensor)
        = true :=
      List.any_eq_true.mpr ⟨qe, hqe, by simp [hqens]⟩
    refine ⟨mx0, nm, fun p hp hpns => hub p hp hpns,
      ⟨iatt, hmem, hins, hisz⟩, ?_, ?_, ?_, ?_, ?_, ?_, ?_, ?_, ?_, ?_, ?_, ?_⟩
    · rw [hclone]
      show (copyAsNullThirdPass _ _ _ _).original_inputs = _
      rw [t1, s2]
    · intro p
      constructor
      · intro hp1
        simp [nullCloneEntry, hp1]
      · intro hp2 hpos hle
        have hcond : ¬ ((some nm : Option String) = some p.1) := by
          simp
          exact fun h => hp2 h.symm
        have hbytes : (List.replicate mx0 (0 : Nat)).take p.2.data.TotalByteSize
            = List.replicate p.2.data.TotalByteSize 0 := by
          rw [List.take_replicate, Nat.min_eq_left hle]
        simp [nullCloneEntry, hcond, InferenceRequest.Input.AppendData, hbytes,
          hpos]
    · intro aid sz src hlen
      constructor
      · simp [memcpyAlloc, ← hlen]
      · rfl
    · rw [hclone]
      show (copyAsNullThirdPass _ _ _ _).requested_outputs = _
      rw [t6, s7]
    · rw [hclone]
      show (copyAsNullThirdPass _ _ _ _).original_requested_outputs = _
      rw [t7, s8]
    · rw [hclone]
    · intro n
      rw [hclone]
      rfl
    · rw [hclone]
      show (copyAsNullThirdPass _ _ _ _).collect_stats = _
      rw [t5, s6]
    · rw [hclone]
      show (copyAsNullThirdPass _ _ _ _).needs_normalization = _
      rw [t2, hany]
      simp
    · rw [hclone]
    · rw [hclone]
      show (copyAsNullThirdPass _ _ _ _).batch_size = _
      rw [t4, s5]
    · rw [hclone]
      show (copyAsNullThirdPass _ _ _ _).backend = _
      rw [t3, s4]
  · simp at habs

/-- C5 witness: the scenario-S5 source satisfies the hypotheses of the
structure theorem (unique names, a non-shape input present). -/
theorem copy_as_null_structure_witness :
    (nullCloneSource.original_inputs.map Prod.fst).Nodup
    ∧ (∃ p ∈ nullCloneSource.original_inputs, p.2.is_shape_tensor = false)
    ∧ ∃ (mx : Nat) (nm : String),
        (∀ p ∈ nullCloneSource.original_inputs, p.2.is_shape_tensor = false →
            p.2.data.TotalByteSize ≤ mx)
        ∧ (∃ i, (nm, i) ∈ nullCloneSource.original_inputs
            ∧ i.is_shape_tensor = false ∧ i.data.TotalByteSize = mx)
        ∧ (InferenceRequest.CopyAsNull 1 nullCloneSource).collect_stats = false
        ∧ (InferenceRequest.CopyAsNull 1 nullCloneSource).needs_normalization
            = true := by
  refine ⟨by decide, by decide, ?_⟩
  obtain ⟨mx, nm, h1, h2, _, _, _, _, _, _, _, h10, h11, _⟩ :=
    copy_as_null_structure nullCloneSource 1 (by decide) (by decide)
  exact ⟨mx, nm, h1, h2, h10, h11⟩
